import Mathlib

/-!
# terraform-provider-ydb: topic and table reconcilers

A shallow embedding of the CRUD handlers of the YDB Terraform provider
(`sdk/terraform/topic/caller.go`, `sdk/terraform/topic/datasorse.go`,
`internal/resources/table/table.go`, `internal/resources/table/create.go`).

Go `error` values are represented by their `Error()` text, the only thing the
handlers ever look at.  The backend is an arbitrary state machine over a state
type `σ`; every handler threads the backend state explicitly and records the
calls it makes in an event log, so that statements such as "no Alter is issued"
can be read off the result.
-/

set_option autoImplicit false

namespace YDB

/-! ## Diagnostics (package `diag` of the plugin SDK) -/

/-- Severity of a diagnostic. -/
inductive Severity where
  | Error
  | Warning
deriving DecidableEq, Repr

/-- One diagnostic: severity, summary, detail. -/
structure Diagnostic where
  severity : Severity
  summary : String
  detail : String
deriving DecidableEq, Repr

/-- An ordered sequence of diagnostics; Go `nil` is the empty list. -/
abbrev Diagnostics := List Diagnostic

/-- The SDK function `diag.FromErr` on a non-nil error: a single Error
diagnostic whose summary is the error text. -/
def diag.FromErr (err : String) : Diagnostics :=
  [{ severity := Severity.Error, summary := err, detail := "" }]

/-! ## Strings -/

/-- Go `strings.Contains` on the characters of the two strings. -/
def containsChars : List Char → List Char → Bool
  | [], sub => sub.isEmpty
  | c :: cs, sub => List.isPrefixOf sub (c :: cs) || containsChars cs sub

/-- Go `strings.Contains`. -/
def strings.Contains (s substr : String) : Bool :=
  containsChars s.data substr.data

/-- Value of a run of decimal digits; `none` for an empty run or a non-digit. -/
def digitsValue : List Char → Option Nat
  | [] => none
  | cs => cs.foldl
      (fun acc ch =>
        match acc with
        | none => none
        | some n => if ch.isDigit then some (n * 10 + (ch.toNat - '0'.toNat)) else none)
      (some 0)

/-- Conversion of an unbounded integer to Go `int64` (two's complement wrap). -/
def wrapInt64 (x : Int) : Int :=
  (x + 2 ^ 63) % 2 ^ 64 - 2 ^ 63

/-! ## Entity identifiers -/

/-- Modelled from the spec: the type `ydbEntity` (`helpers.YDBEntity`) is declared
outside the available sources.  The spec describes it as the composite key
`{endpoint, path}` with `PrepareFullEndpoint` and `EntityPath` as pure
projections. -/
structure ydbEntity where
  endpoint : String
  path : String
deriving DecidableEq, Repr

/-- Modelled from the spec: `prepareFullYDBEndpoint` is a pure projection. -/
def ydbEntity.prepareFullYDBEndpoint (e : ydbEntity) : String := e.endpoint

/-- Modelled from the spec: `getEntityPath` is a pure projection. -/
def ydbEntity.getEntityPath (e : ydbEntity) : String := e.path

/-! ## Topic: configuration, backend and events -/

/-- A topic codec (`topictypes.Codec`, an integer enumeration). -/
abbrev Codec := Int

/-- One element of the `consumer` list as the handler reads it: the map entry
`supported_codecs` asserted to a list (`none` when the assertion fails) and
`starting_message_timestamp_ms` asserted to an int (`none` when it fails).
The maps `schema.ResourceData` hands out hold every key of the element schema, so
for them both assertions succeed: see `ConsumerBlock.toMap`. -/
structure ConsumerConfig where
  name : String
  supported_codecs : Option (List String)
  starting_message_timestamp_ms : Option Int
deriving DecidableEq, Repr

/-- A `consumer` block as written in the configuration: the codec list and the
starting timestamp may be left out. -/
structure ConsumerBlock where
  name : String
  supported_codecs : Option (List String)
  starting_message_timestamp_ms : Option Int
deriving DecidableEq, Repr

/-- The element of `d.Get("consumer")` for a block, after the plugin SDK: every
key of the element schema is present in the map, a list left out of the
configuration arrives as the empty list and an integer left out arrives as 0. -/
def ConsumerBlock.toMap (b : ConsumerBlock) : ConsumerConfig :=
  { name := b.name
    supported_codecs := some (b.supported_codecs.getD [])
    starting_message_timestamp_ms := some (b.starting_message_timestamp_ms.getD 0) }

/-- The part of `schema.ResourceData` the topic handlers read and write.
`supported_codecs` is the result of `GetOk` (`none` when not ok) and
`nameHasChange` is `d.HasChange("name")`. -/
structure ResourceData where
  id : String
  database_endpoint : String
  name : String
  nameHasChange : Bool
  supported_codecs : Option (List String)
  consumer : List ConsumerConfig
  retention_period_ms : Int
  partitions_count : Int
deriving DecidableEq, Repr

/-- The method `d.SetId`. -/
def ResourceData.SetId (d : ResourceData) (v : String) : ResourceData :=
  { d with id := v }

/-- A consumer as passed to the backend (`topictypes.Consumer`); `ReadFrom` is
kept as seconds since the epoch. -/
structure Consumer where
  Name : String
  SupportedCodecs : List Codec
  ReadFrom : Int
deriving DecidableEq, Repr

/-- The arguments of the backend create-topic call, one field per option. -/
structure CreateRequest where
  path : String
  supportedCodecs : List Codec
  partitionWriteBurstBytes : Int
  partitionWriteSpeedBytesPerSecond : Int
  retentionPeriod : Int
  minActivePartitions : Int
  consumers : List Consumer
deriving DecidableEq, Repr

/-- A connection handle returned by the backend. -/
abbrev Conn := Nat

/-- What a handler did, in order.  `δ` is the type of topic descriptions and
`ο` the type of alter options. -/
inductive Event (δ ο : Type) where
  | Open (endpoint : String)
  | Connect
  | Close (c : Conn)
  | Describe (c : Conn) (path : String)
  | Create (c : Conn) (req : CreateRequest)
  | Alter (c : Conn) (path : String) (opts : List ο)
  | Drop (c : Conn) (path : String)
  | Flatten (desc : δ)
deriving DecidableEq, Repr

/-- Everything the topic handlers take from outside `caller.go`: the backend
(a state machine over `σ`), the helpers and the constants of the package that
are declared in other files, and the two standard-library string functions. -/
structure TopicEnv (σ δ ο : Type) where
  /-- the call `ydb.Open` with an endpoint and an access token -/
  ydbOpen : σ → String → String → Except String Conn × σ
  /-- the free function `createYDBConnection(ctx, d, nil)` of the data source -/
  createYDBConnectionFn : σ → ResourceData → Except String Conn × σ
  ydbClose : σ → Conn → σ
  topicDescribe : σ → Conn → String → Except String δ × σ
  topicCreate : σ → Conn → CreateRequest → Option String × σ
  topicAlter : σ → Conn → String → List ο → Option String × σ
  topicDrop : σ → Conn → String → Option String × σ
  parseYDBEntityID : String → Except String ydbEntity
  flattenYDBTopicDescription : ResourceData → δ → Option String × ResourceData
  prepareYDBTopicAlterSettings : ResourceData → δ → List ο
  ydbTopicDefaultCodecs : List Codec
  ydbTopicAllowedCodecs : List String
  ydbTopicCodecNameToCodec : List (String × Codec)
  ydbTopicDefaultMaxPartitionWriteSpeed : Int
  /-- the function `strings.ToLower` -/
  stringsToLower : String → String
  /-- the quoting done by the verb `%q` -/
  strconvQuote : String → String

/-- Indexing a Go map: the zero value when the key is missing. -/
def codecLookup (table : List (String × Codec)) (key : String) : Codec :=
  (table.lookup key).getD 0

/-- Result of a handler: diagnostics, the resource data and backend state it
leaves, and the events in the order they happened. -/
structure Outcome (σ δ ο : Type) where
  diags : Diagnostics
  d : ResourceData
  st : σ
  log : List (Event δ ο)

section Topic

variable {σ δ ο : Type}

/-- The method `caller.createYDBConnection`: the endpoint is the entity's when an
entity is given and the configured `database_endpoint` otherwise. -/
def createYDBConnection (env : TopicEnv σ δ ο) (token : String) (d : ResourceData)
    (ydbEn : Option ydbEntity) (st : σ) : (Except String Conn × σ) × List (Event δ ο) :=
  let databaseEndpoint :=
    match ydbEn with
    | some en => en.prepareFullYDBEndpoint
    | none => d.database_endpoint
  match env.ydbOpen st databaseEndpoint token with
  | (Except.error err, st1) =>
    ((Except.error ("failed to create control-plane client: " ++ err), st1),
      [Event.Open databaseEndpoint])
  | (Except.ok sess, st1) => ((Except.ok sess, st1), [Event.Open databaseEndpoint])

/-- The method `caller.resourceYDBTopicRead`. -/
def resourceYDBTopicRead (env : TopicEnv σ δ ο) (token : String) (d : ResourceData)
    (st : σ) : Outcome σ δ ο :=
  match env.parseYDBEntityID d.id with
  | Except.error err => ⟨diag.FromErr err, d, st, []⟩
  | Except.ok topic =>
    match createYDBConnection env token d (some topic) st with
    | ((Except.error err, st1), log1) =>
      ⟨diag.FromErr ("failed to initialize ydb-topic control plane client: " ++ err),
        d, st1, log1⟩
    | ((Except.ok ydbClient, st1), log1) =>
      let topicName := topic.getEntityPath
      match env.topicDescribe st1 ydbClient topicName with
      | (Except.error err, st2) =>
        if strings.Contains err "does not exist" then
          ⟨[], d.SetId "", env.ydbClose st2 ydbClient,
            log1 ++ [Event.Describe ydbClient topicName, Event.Close ydbClient]⟩
        else
          ⟨diag.FromErr ("resource: failed to describe topic: " ++ err), d,
            env.ydbClose st2 ydbClient,
            log1 ++ [Event.Describe ydbClient topicName, Event.Close ydbClient]⟩
      | (Except.ok description, st2) =>
        match env.flattenYDBTopicDescription d description with
        | (some err, d1) =>
          ⟨diag.FromErr ("failed to flatten topic description: " ++ err), d1,
            env.ydbClose st2 ydbClient,
            log1 ++ [Event.Describe ydbClient topicName, Event.Flatten description,
              Event.Close ydbClient]⟩
        | (none, d1) =>
          ⟨[], d1, env.ydbClose st2 ydbClient,
            log1 ++ [Event.Describe ydbClient topicName, Event.Flatten description,
              Event.Close ydbClient]⟩

/-- The function `dataSourceYDBTopicRead`. -/
def dataSourceYDBTopicRead (env : TopicEnv σ δ ο) (d : ResourceData) (st : σ) :
    Outcome σ δ ο :=
  match env.createYDBConnectionFn st d with
  | (Except.error err, st1) =>
    ⟨diag.FromErr ("failed to initialize ydb-stream control plane client: " ++ err),
      d, st1, [Event.Connect]⟩
  | (Except.ok client, st1) =>
    match env.topicDescribe st1 client d.name with
    | (Except.error err, st2) =>
      if strings.Contains err "does not exist" then
        ⟨[], d.SetId "", env.ydbClose st2 client,
          [Event.Connect, Event.Describe client d.name, Event.Close client]⟩
      else
        ⟨diag.FromErr ("datasource: failed to describe stream: " ++ err), d,
          env.ydbClose st2 client,
          [Event.Connect, Event.Describe client d.name, Event.Close client]⟩
    | (Except.ok description, st2) =>
      match env.flattenYDBTopicDescription d description with
      | (some err, d1) =>
        ⟨diag.FromErr ("failed to flatten stream description: " ++ err), d1,
          env.ydbClose st2 client,
          [Event.Connect, Event.Describe client d.name, Event.Flatten description,
            Event.Close client]⟩
      | (none, d1) =>
        ⟨[], d1, env.ydbClose st2 client,
          [Event.Connect, Event.Describe client d.name, Event.Flatten description,
            Event.Close client]⟩

/-- The topic-level codec list of `resourceYDBTopicCreate` (lines 124-132). -/
def topicSupportedCodecs (env : TopicEnv σ δ ο) (d : ResourceData) : List Codec :=
  match d.supported_codecs with
  | none => env.ydbTopicDefaultCodecs
  | some gotCodecs => gotCodecs.map (fun cod => codecLookup env.ydbTopicCodecNameToCodec cod)

/-- One iteration of the consumer loop of `resourceYDBTopicCreate`
(lines 136-157). -/
def topicConsumer (env : TopicEnv σ δ ο) (consumer : ConsumerConfig) : Consumer :=
  let supportedCodecs : List String :=
    match consumer.supported_codecs with
    | some l => l
    | none => env.ydbTopicAllowedCodecs
  let startingMessageTS : Int :=
    match consumer.starting_message_timestamp_ms with
    | some ts => ts
    | none => 0
  { Name := consumer.name
    SupportedCodecs := supportedCodecs.map
      (fun codec => codecLookup env.ydbTopicCodecNameToCodec (env.stringsToLower codec))
    ReadFrom := Int.tdiv startingMessageTS 1000 }

/-- The arguments `resourceYDBTopicCreate` passes to the backend create call
(lines 163-170). -/
def topicCreateRequest (env : TopicEnv σ δ ο) (d : ResourceData) : CreateRequest :=
  { path := d.name
    supportedCodecs := topicSupportedCodecs env d
    partitionWriteBurstBytes := env.ydbTopicDefaultMaxPartitionWriteSpeed
    partitionWriteSpeedBytesPerSecond := env.ydbTopicDefaultMaxPartitionWriteSpeed
    retentionPeriod := wrapInt64 (wrapInt64 d.retention_period_ms * 1000000)
    minActivePartitions := wrapInt64 d.partitions_count
    consumers := d.consumer.map (topicConsumer env) }

/-- The method `caller.resourceYDBTopicCreate`.  The test `err != nil` inside the
consumer loop (lines 158-160) reads the error of `createYDBConnection`, which is
nil there, so the loop never returns. -/
def resourceYDBTopicCreate (env : TopicEnv σ δ ο) (token : String) (d : ResourceData)
    (st : σ) : Outcome σ δ ο :=
  match createYDBConnection env token d none st with
  | ((Except.error err, st1), log1) =>
    ⟨diag.FromErr ("failed to initialize yds control plane client: " ++ err), d, st1, log1⟩
  | ((Except.ok client, st1), log1) =>
    let req := topicCreateRequest env d
    match env.topicCreate st1 client req with
    | (some err, st2) =>
      ⟨diag.FromErr ("failed to initialize ydb-topic control plane client: " ++ err), d,
        env.ydbClose st2 client, log1 ++ [Event.Create client req, Event.Close client]⟩
    | (none, st2) =>
      let topicPath := d.name
      let d1 := d.SetId (d.database_endpoint ++ "/" ++ topicPath)
      let r := resourceYDBTopicRead env token d1 st2
      ⟨r.diags, r.d, env.ydbClose r.st client,
        log1 ++ [Event.Create client req] ++ r.log ++ [Event.Close client]⟩

/-- The method `caller.performYDBTopicUpdate`. -/
def performYDBTopicUpdate (env : TopicEnv σ δ ο) (token : String) (d : ResourceData)
    (st : σ) : Outcome σ δ ο :=
  match env.parseYDBEntityID d.id with
  | Except.error err => ⟨diag.FromErr err, d, st, []⟩
  | Except.ok topic =>
    match createYDBConnection env token d (some topic) st with
    | ((Except.error err, st1), log1) =>
      ⟨diag.FromErr ("failed to initialize ydb-topic control plane client: " ++ err),
        d, st1, log1⟩
    | ((Except.ok ydbClient, st1), log1) =>
      if d.nameHasChange then
        let r := resourceYDBTopicCreate env token d st1
        ⟨r.diags, r.d, env.ydbClose r.st ydbClient, log1 ++ r.log ++ [Event.Close ydbClient]⟩
      else
        let topicName := topic.getEntityPath
        match env.topicDescribe st1 ydbClient topicName with
        | (Except.error err, st2) =>
          if strings.Contains err "does not exist" then
            let r := resourceYDBTopicCreate env token d st2
            ⟨r.diags, r.d, env.ydbClose r.st ydbClient,
              log1 ++ [Event.Describe ydbClient topicName] ++ r.log ++
                [Event.Close ydbClient]⟩
          else
            ⟨diag.FromErr ("failed to get description for topic " ++
                env.strconvQuote topicName), d, env.ydbClose st2 ydbClient,
              log1 ++ [Event.Describe ydbClient topicName, Event.Close ydbClient]⟩
        | (Except.ok desc, st2) =>
          let opts := env.prepareYDBTopicAlterSettings d desc
          match env.topicAlter st2 ydbClient topicName opts with
          | (some err, st3) =>
            ⟨diag.FromErr ("got error when tried to alter topic: " ++ err), d,
              env.ydbClose st3 ydbClient,
              log1 ++ [Event.Describe ydbClient topicName,
                Event.Alter ydbClient topicName opts, Event.Close ydbClient]⟩
          | (none, st3) =>
            let r := resourceYDBTopicRead env token d st3
            ⟨r.diags, r.d, env.ydbClose r.st ydbClient,
              log1 ++ [Event.Describe ydbClient topicName,
                Event.Alter ydbClient topicName opts] ++ r.log ++ [Event.Close ydbClient]⟩

/-- The method `caller.resourceYDBTopicUpdate`. -/
def resourceYDBTopicUpdate (env : TopicEnv σ δ ο) (token : String) (d : ResourceData)
    (st : σ) : Outcome σ δ ο :=
  performYDBTopicUpdate env token d st

/-- The method `caller.resourceYDBTopicDelete`. -/
def resourceYDBTopicDelete (env : TopicEnv σ δ ο) (token : String) (d : ResourceData)
    (st : σ) : Outcome σ δ ο :=
  match env.parseYDBEntityID d.id with
  | Except.error err => ⟨diag.FromErr err, d, st, []⟩
  | Except.ok topic =>
    match createYDBConnection env token d (some topic) st with
    | ((Except.error err, st1), log1) =>
      ⟨diag.FromErr ("failed to initialize ydb-topic control plane client: " ++ err),
        d, st1, log1⟩
    | ((Except.ok client, st1), log1) =>
      let topicName := topic.getEntityPath
      match env.topicDrop st1 client topicName with
      | (some err, st2) =>
        ⟨diag.FromErr ("failed to delete topic: " ++ err), d, env.ydbClose st2 client,
          log1 ++ [Event.Drop client topicName, Event.Close client]⟩
      | (none, st2) =>
        ⟨[], d, env.ydbClose st2 client,
          log1 ++ [Event.Drop client topicName, Event.Close client]⟩

end Topic

/-! ## Table: data model (`internal/resources/table/table.go`) -/

/-- The struct `Column`. -/
structure Column where
  Name : String
  Type_ : String
  Family : String
  NotNull : Bool
deriving DecidableEq, Repr

/-- The struct `PrimaryKey`. -/
structure PrimaryKey where
  Columns : List String
deriving DecidableEq, Repr

/-- The struct `Index`. -/
structure Index where
  Name : String
  Type_ : String
  Columns : List String
  Cover : List String
deriving DecidableEq, Repr

/-- The struct `TTL`. -/
structure TTL where
  ColumnName : String
  Mode : String
  ExpireInterval : String
deriving DecidableEq, Repr

/-- The struct `PartitionAtKeys`; `κ` is the type of parsed key values. -/
structure PartitionAtKeys (κ : Type) where
  Keys : List κ
deriving DecidableEq, Repr

/-- The struct `PartitioningSettings`; a nil pointer is `none`. -/
structure PartitioningSettings (κ : Type) where
  BySize : Option Int
  ByLoad : Option Bool
  PartitionAtKeys : List (PartitionAtKeys κ)
  PartitionsCount : Int
  MinPartitionsCount : Int
  MaxPartitionsCount : Int
deriving DecidableEq, Repr

/-- The struct `ReplicationSettings`. -/
structure ReplicationSettings where
  ReadReplicasSettings : String
deriving DecidableEq, Repr

/-- The struct `Family`. -/
structure Family where
  Name : String
  Data : String
  Compression : String
deriving DecidableEq, Repr

/-- The struct `Resource`, with the field `Token` that `create.go` assigns. -/
structure Resource (κ : Type) where
  Entity : Option ydbEntity
  FullPath : String
  Path : String
  DatabaseEndpoint : String
  Attributes : List (String × String)
  Family : List Family
  Columns : List Column
  Indexes : List Index
  PrimaryKey : PrimaryKey
  TTL : Option TTL
  ReplicationSettings : Option ReplicationSettings
  PartitioningSettings : Option (PartitioningSettings κ)
  EnableBloomFilter : Option Bool
  Token : String
deriving DecidableEq, Repr

/-! ## Table: configuration as the handlers read it -/

/-- One element of the `ttl` set. -/
structure TTLConfig where
  column_name : String
  expire_interval : String
deriving DecidableEq, Repr

/-- One element of a `partition_at_keys` list: the map entry `keys`. -/
structure PartitionAtKeysConfig where
  keys : List String
deriving DecidableEq, Repr

/-- One element of the `partitioning_settings` set.  Every entry is the result of
the type assertion the code makes on it (`none` when the assertion fails). -/
structure PartitioningConfig where
  uniform_partitions : Option Int
  partition_at_keys : Option (List PartitionAtKeysConfig)
  auto_partitioning_min_partitions_count : Option Int
  auto_partitioning_max_partitions_count : Option Int
  auto_partitioning_by_load : Option Bool
  auto_partitioning_by_size_enabled : Option Int
deriving DecidableEq, Repr

/-- A value read from the resource data or stored under a key of a flattened map
(Go `interface{}`), as far as the partitioning settings need it: an integer, a
list of split points, the object of one element of the set
`partitioning_settings`, or the empty map. -/
inductive FlatValue where
  | int (n : Int)
  | keys (l : List PartitionAtKeysConfig)
  | object (m : PartitioningConfig)
  | emptyMap
deriving DecidableEq, Repr

/-- The part of `schema.ResourceData` the table handlers read and write.  The
fields `ttl`, `read_replicas_settings`, `partitioning_settings` and
`primary_key_bloom_filter` are the results of `GetOk` (`none` when not ok);
`column`, `primary_key`, `index`, `family` and `attributes` are what the
expanders declared in other files read; `partitioningState` and
`partitioningPlanned` are the elements of the set `partitioning_settings`, each
with its hash code, as recorded in the prior state and as planned. -/
structure TableData where
  id : String
  database_endpoint : String
  path : String
  column : List Column
  primary_key : List String
  index : List Index
  family : List Family
  attributes : List (String × String)
  ttl : Option (List TTLConfig)
  read_replicas_settings : Option String
  partitioning_settings : Option (List PartitioningConfig)
  primary_key_bloom_filter : Option Bool
  partitioningState : List (Int × PartitioningConfig)
  partitioningPlanned : List (Int × PartitioningConfig)
deriving DecidableEq, Repr

/-- The method `d.SetId`. -/
def TableData.SetId (d : TableData) (v : String) : TableData :=
  { d with id := v }

/-- The hash code an address part designates: the integer whose decimal numeral
the part is, if it is one. -/
def setElementCode (part : String) : Option Int :=
  match part.data with
  | '-' :: ds => (digitsValue ds).map (fun n => -(n : Int))
  | ds => (digitsValue ds).map (fun n => (n : Int))

/-- Reading one element of the set `partitioning_settings`, after the plugin SDK:
the attribute is a set of objects, so the address part that follows its name
designates an element by its hash code.  The read yields the object of that
element, and the empty map when no element has that code. -/
def readSetElement (elems : List (Int × PartitioningConfig)) (part : String) : FlatValue :=
  match setElementCode part with
  | none => FlatValue.emptyMap
  | some code =>
    match elems.lookup code with
    | none => FlatValue.emptyMap
    | some m => FlatValue.object m

/-- The part of a key that follows `partitioning_settings.`, for a key of that
shape. -/
def partitioningAddressPart (key : String) : Option String :=
  match key.data.span (fun ch => ch != '.') with
  | (_, []) => none
  | (attr, _ :: part) =>
    if String.mk attr = "partitioning_settings" then some (String.mk part) else none

/-- Reading a key of the shape `partitioning_settings.<part>` in a given set of
elements.  Only keys of that shape are read by the code embedded here. -/
def readPartitioningKey (elems : List (Int × PartitioningConfig)) (key : String) :
    FlatValue :=
  match partitioningAddressPart key with
  | none => FlatValue.emptyMap
  | some part => readSetElement elems part

/-- The method `d.GetChange`: the value in the prior state, then the planned value. -/
def TableData.GetChange (d : TableData) (key : String) : FlatValue × FlatValue :=
  (readPartitioningKey d.partitioningState key, readPartitioningKey d.partitioningPlanned key)

/-- The method `d.HasChange`: the two values of `GetChange` differ. -/
def TableData.HasChange (d : TableData) (key : String) : Bool :=
  decide ((d.GetChange key).1 ≠ (d.GetChange key).2)

/-- The method `d.Get`: the planned value. -/
def TableData.Get (d : TableData) (key : String) : FlatValue :=
  readPartitioningKey d.partitioningPlanned key

/-- The part of `url.URL` the code uses: the parsed query values. -/
structure URL where
  query : List (String × String)
deriving DecidableEq, Repr

/-- The call `u.Query().Get(key)`: the first value of the key, or the empty string. -/
def URL.QueryGet (u : URL) (key : String) : String :=
  (u.query.lookup key).getD ""

/-- What the table handler did, in order. -/
inductive TableEvent where
  | Open (endpoint token : String)
  | ExecuteSchemeQuery (c : Conn) (q : String)
  | Close (c : Conn)
  | Read (id : String)
deriving DecidableEq, Repr

/-- Everything the table code takes from outside `table.go` and `create.go`. -/
structure TableEnv (σ κ : Type) where
  ParseYDBEntityID : String → Except String ydbEntity
  /-- the function `url.Parse` -/
  urlParse : String → Except String URL
  parsePartitionKey : String → String → Except String κ
  expandColumns : TableData → List Column
  expandIndexes : TableData → List Index
  expandPrimaryKey : TableData → List String
  expandColumnFamilies : TableData → List Family
  expandAttributes : TableData → List (String × String)
  PrepareCreateRequest : Resource κ → String
  CreateDBConnection : σ → String → String → Except String Conn × σ
  ExecuteSchemeQuery : σ → Conn → String → Option String × σ
  Close : σ → Conn → σ
  /-- the method `handler.Read` -/
  Read : σ → TableData → (Diagnostics × TableData) × σ

/-- A feature flag of a remote description (`options.FeatureFlag`). -/
inductive FeatureFlag where
  | Unspecified
  | FeatureEnabled
  | FeatureDisabled
deriving DecidableEq, Repr

/-- The remote partitioning description (`options.PartitioningSettings`). -/
structure RemotePartitioningSettings where
  PartitioningBySize : FeatureFlag
  PartitionSizeMb : Nat
  PartitioningByLoad : FeatureFlag
  MinPartitionsCount : Nat
  MaxPartitionsCount : Nat
deriving DecidableEq, Repr

/-- The map `flattenTablePartitioningSettings` builds, one field per key. -/
structure FlatPartitioningSettings where
  partition_at_keys : FlatValue
  uniform_partitions : FlatValue
  auto_partitioning_by_size_enabled : Bool
  auto_partitioning_by_load : Bool
  auto_partitioning_size_mb : Nat
  auto_partitioning_min_partitions_count : Nat
  auto_partitioning_max_partitions_count : Nat
deriving DecidableEq, Repr

/-- Result of the table handler. -/
structure TableOutcome (σ : Type) where
  diags : Diagnostics
  d : TableData
  st : σ
  log : List TableEvent

section Table

variable {σ κ : Type}

/-- The function `expandTableTTLSettings`: the last element of the set wins. -/
def expandTableTTLSettings (d : TableData) : Option TTL :=
  match d.ttl with
  | none => none
  | some ttlSet =>
    ttlSet.foldl
      (fun _ m => some { ColumnName := m.column_name, Mode := "",
                         ExpireInterval := m.expire_interval })
      none

/-- The function `expandTableReplicasSettings`. -/
def expandTableReplicasSettings (d : TableData) : Option ReplicationSettings :=
  match d.read_replicas_settings with
  | none => none
  | some v => some { ReadReplicasSettings := v }

/-- The inner loop of `expandPartitionAtKeys` (lines 118-127) from index `i` on,
with the keys collected so far. -/
def expandKeysLoop (parsePartitionKey : String → String → Except String κ)
    (primaryKeyColumns : List Column) : Nat → List String → List κ → Except String (List κ)
  | _, [], acc => Except.ok acc
  | i, k :: ks, acc =>
    if i = primaryKeyColumns.length then
      Except.error "can not be more partition keys than primary key columns"
    else
      match primaryKeyColumns[i]? with
      | none => Except.error "runtime error: index out of range"
      | some col =>
        match parsePartitionKey k col.Type_ with
        | Except.error err => Except.error err
        | Except.ok got => expandKeysLoop parsePartitionKey primaryKeyColumns (i + 1) ks (acc ++ [got])

/-- The outer loop of `expandPartitionAtKeys` (lines 114-129), with the result
collected so far. -/
def expandTuplesLoop (parsePartitionKey : String → String → Except String κ)
    (primaryKeyColumns : List Column) :
    List PartitionAtKeysConfig → List (PartitionAtKeys κ) → Except String (List (PartitionAtKeys κ))
  | [], res => Except.ok res
  | vv :: vs, res =>
    match expandKeysLoop parsePartitionKey primaryKeyColumns 0 vv.keys [] with
    | Except.error err => Except.error err
    | Except.ok keys =>
      expandTuplesLoop parsePartitionKey primaryKeyColumns vs (res ++ [{ Keys := keys }])

/-- The function `expandPartitionAtKeys`. -/
def expandPartitionAtKeys (parsePartitionKey : String → String → Except String κ)
    (p : List PartitionAtKeysConfig) (primaryKeyColumns : List Column) :
    Except String (List (PartitionAtKeys κ)) :=
  if p.length = 0 then Except.ok []
  else expandTuplesLoop parsePartitionKey primaryKeyColumns p []

/-- One iteration of the loop of `expandTablePartitioningPolicySettings`
(lines 143-164). -/
def expandPartitioningStep (parsePartitionKey : String → String → Except String κ)
    (columns : List Column) (p : PartitioningSettings κ) (m : PartitioningConfig) :
    Except String (PartitioningSettings κ) :=
  let p1 : PartitioningSettings κ :=
    match m.uniform_partitions with
    | some partitionsCount => { p with PartitionsCount := partitionsCount }
    | none => p
  let p2 : Except String (PartitioningSettings κ) :=
    match m.partition_at_keys with
    | some explicitPartitions =>
      match expandPartitionAtKeys parsePartitionKey explicitPartitions columns with
      | Except.error err => Except.error err
      | Except.ok keys => Except.ok { p1 with PartitionAtKeys := keys }
    | none => Except.ok p1
  match p2 with
  | Except.error err => Except.error err
  | Except.ok p2 =>
    let p3 : PartitioningSettings κ :=
      match m.auto_partitioning_min_partitions_count with
      | some minPartitionsCount => { p2 with MinPartitionsCount := minPartitionsCount }
      | none => p2
    let p4 : PartitioningSettings κ :=
      match m.auto_partitioning_max_partitions_count with
      | some maxPartitionsCount => { p3 with MaxPartitionsCount := maxPartitionsCount }
      | none => p3
    let p5 : PartitioningSettings κ :=
      match m.auto_partitioning_by_load with
      | some byLoad => { p4 with ByLoad := some byLoad }
      | none => p4
    let p6 : PartitioningSettings κ :=
      match m.auto_partitioning_by_size_enabled with
      | some bySize => { p5 with BySize := some bySize }
      | none => p5
    Except.ok p6

/-- The loop of `expandTablePartitioningPolicySettings` over the elements of the set. -/
def expandPartitioningLoop (parsePartitionKey : String → String → Except String κ)
    (columns : List Column) :
    List PartitioningConfig → PartitioningSettings κ → Except String (PartitioningSettings κ)
  | [], p => Except.ok p
  | m :: ms, p =>
    match expandPartitioningStep parsePartitionKey columns p m with
    | Except.error err => Except.error err
    | Except.ok p1 => expandPartitioningLoop parsePartitionKey columns ms p1

/-- The function `expandTablePartitioningPolicySettings`: `ok none` is the pair
`(nil, nil)`. -/
def expandTablePartitioningPolicySettings
    (parsePartitionKey : String → String → Except String κ)
    (d : TableData) (columns : List Column) : Except String (Option (PartitioningSettings κ)) :=
  match d.partitioning_settings with
  | none => Except.ok none
  | some pSet =>
    match expandPartitioningLoop parsePartitionKey columns pSet
        { BySize := none, ByLoad := none, PartitionAtKeys := [], PartitionsCount := 0,
          MinPartitionsCount := 0, MaxPartitionsCount := 0 } with
    | Except.error err => Except.error err
    | Except.ok p => Except.ok (some p)

/-- The function `tableResourceSchemaToTableResource`: `ok none` would be the
pair `(nil, nil)`, which the function never returns. -/
def tableResourceSchemaToTableResource (env : TableEnv σ κ) (d : TableData) :
    Except String (Option (Resource κ)) :=
  let entityE : Except String (Option ydbEntity) :=
    if d.id ≠ "" then
      match env.ParseYDBEntityID d.id with
      | Except.error err => Except.error ("failed to parse table entity: " ++ err)
      | Except.ok e => Except.ok (some e)
    else Except.ok none
  match entityE with
  | Except.error err => Except.error err
  | Except.ok entity =>
    let columns := env.expandColumns d
    let indexes := env.expandIndexes d
    let pk := env.expandPrimaryKey d
    let families := env.expandColumnFamilies d
    let attributes := env.expandAttributes d
    let ttl := expandTableTTLSettings d
    let databaseEndpoint := d.database_endpoint
    match env.urlParse databaseEndpoint with
    | Except.error err => Except.error ("failed to parse database endpoint: " ++ err)
    | Except.ok databaseURL =>
      match expandTablePartitioningPolicySettings env.parsePartitionKey d columns with
      | Except.error err =>
        Except.error ("failed to expand table partitioning settings: " ++ err)
      | Except.ok partitioningSettings =>
        let replicasSettings := expandTableReplicasSettings d
        let bloomFilterEnabled := d.primary_key_bloom_filter
        let pathAndEndpoint : String × String :=
          match entity with
          | some en =>
            (en.prepareFullYDBEndpoint ++ "/" ++ en.getEntityPath, en.prepareFullYDBEndpoint)
          | none => (databaseURL.QueryGet "database" ++ "/" ++ d.path, d.database_endpoint)
        Except.ok (some
          { Entity := entity
            FullPath := pathAndEndpoint.1
            Path := d.path
            DatabaseEndpoint := pathAndEndpoint.2
            Attributes := attributes
            Family := families
            Columns := columns
            Indexes := indexes
            PrimaryKey := { Columns := pk }
            TTL := ttl
            PartitioningSettings := partitioningSettings
            ReplicationSettings := replicasSettings
            EnableBloomFilter := bloomFilterEnabled
            Token := "" })

/-- The function `flattenTablePartitioningSettings`: the one-element list holding
the map it builds. -/
def flattenTablePartitioningSettings (d : TableData) (settings : RemotePartitioningSettings) :
    List FlatPartitioningSettings :=
  let partition_at_keys :=
    if d.HasChange "partitioning_settings.partition_at_keys" then
      let oldPartitionAtKeys := (d.GetChange "partitioning_settings.partition_at_keys").1
      oldPartitionAtKeys
    else d.Get "partitioning_settings.partition_at_keys"
  let uniform_partitions :=
    if d.HasChange "partitioning_settings.uniform_partitions" then
      let oldUniformPartitions := (d.GetChange "partitioning_settings.uniform_partitions").1
      oldUniformPartitions
    else d.Get "partitioning_settings.uniform_partitions"
  [{ partition_at_keys := partition_at_keys
     uniform_partitions := uniform_partitions
     auto_partitioning_by_size_enabled :=
       decide (settings.PartitioningBySize = FeatureFlag.FeatureEnabled)
     auto_partitioning_by_load :=
       decide (settings.PartitioningByLoad = FeatureFlag.FeatureEnabled)
     auto_partitioning_size_mb := settings.PartitionSizeMb
     auto_partitioning_min_partitions_count := settings.MinPartitionsCount
     auto_partitioning_max_partitions_count := settings.MaxPartitionsCount }]

/-- The method `handler.Create` of the table resource.  The deferred `Close` is
registered only once the connection is open. -/
def handler.Create (env : TableEnv σ κ) (token : String) (d : TableData) (st : σ) :
    TableOutcome σ :=
  match tableResourceSchemaToTableResource env d with
  | Except.error err => ⟨diag.FromErr err, d, st, []⟩
  | Except.ok none =>
    ⟨[{ severity := Severity.Error, summary := "got nil resource, unreachable code",
        detail := "" }], d, st, []⟩
  | Except.ok (some tableResource0) =>
    let tableResource := { tableResource0 with Token := token }
    match env.CreateDBConnection st tableResource.DatabaseEndpoint tableResource.Token with
    | (Except.error err, st1) =>
      ⟨[{ severity := Severity.Error, summary := "failed to initialize table client",
          detail := err }], d, st1,
        [TableEvent.Open tableResource.DatabaseEndpoint tableResource.Token]⟩
    | (Except.ok db, st1) =>
      let q := env.PrepareCreateRequest tableResource
      match env.ExecuteSchemeQuery st1 db q with
      | (some err, st2) =>
        ⟨[{ severity := Severity.Error, summary := "failed to create table", detail := err }],
          d, env.Close st2 db,
          [TableEvent.Open tableResource.DatabaseEndpoint tableResource.Token,
            TableEvent.ExecuteSchemeQuery db q, TableEvent.Close db]⟩
      | (none, st2) =>
        let d1 := d.SetId tableResource.Path
        match env.Read st2 d1 with
        | ((diags, d2), st3) =>
          ⟨diags, d2, env.Close st3 db,
            [TableEvent.Open tableResource.DatabaseEndpoint tableResource.Token,
              TableEvent.ExecuteSchemeQuery db q, TableEvent.Read d1.id, TableEvent.Close db]⟩

end Table

/-! ## Event classification -/

/-- Is the event a backend Alter call? -/
def Event.isAlter {δ ο : Type} : Event δ ο → Bool
  | Event.Alter _ _ _ => true
  | _ => false

/-- Is the event a backend create-topic call? -/
def Event.isCreate {δ ο : Type} : Event δ ο → Bool
  | Event.Create _ _ => true
  | _ => false

/-- Is the event a run of the topic flattener? -/
def Event.isFlatten {δ ο : Type} : Event δ ο → Bool
  | Event.Flatten _ => true
  | _ => false

/-! ## A concrete backend for evaluating the handlers

The state of the in-memory backend is the list of topic paths that exist.
Identifiers have the shape `<endpoint>/<path>` with an endpoint free of `/`. -/

/-- Decoder of the in-memory example: split at the first `/`. -/
def memParseYDBEntityID (id : String) : Except String ydbEntity :=
  match id.data.span (fun ch => ch != '/') with
  | (_, []) => Except.error "failed to parse ydb entity id: no path"
  | ([], _) => Except.error "failed to parse ydb entity id: no endpoint"
  | (_, [_]) => Except.error "failed to parse ydb entity id: empty path"
  | (ep, _ :: rest) => Except.ok { endpoint := String.mk ep, path := String.mk rest }

/-- Opening a connection of the in-memory example: the endpoint `down:2135` refuses. -/
def memOpen (st : List String) (endpoint : String) (_token : String) :
    Except String Conn × List String :=
  if endpoint = "down:2135" then (Except.error "dial tcp: connection refused", st)
  else (Except.ok 1, st)

/-- Describe of the in-memory example; the description is the topic path. -/
def memDescribe (st : List String) (_c : Conn) (path : String) :
    Except String String × List String :=
  if path ∈ st then (Except.ok path, st)
  else (Except.error "operation/SCHEME_ERROR: path does not exist", st)

/-- Create of the in-memory example. -/
def memCreate (st : List String) (_c : Conn) (req : CreateRequest) :
    Option String × List String :=
  if req.path ∈ st then (some "operation/SCHEME_ERROR: path exists", st)
  else (none, req.path :: st)

/-- Alter of the in-memory example. -/
def memAlter (st : List String) (_c : Conn) (path : String) (_opts : List String) :
    Option String × List String :=
  if path ∈ st then (none, st)
  else (some "operation/SCHEME_ERROR: path does not exist", st)

/-- Drop of the in-memory example. -/
def memDrop (st : List String) (_c : Conn) (path : String) : Option String × List String :=
  if path ∈ st then (none, st.erase path)
  else (some "operation/SCHEME_ERROR: path does not exist", st)

/-- The in-memory example environment of the topic handlers. -/
def memTopicEnv : TopicEnv (List String) String String where
  ydbOpen := memOpen
  createYDBConnectionFn := fun st d => memOpen st d.database_endpoint ""
  ydbClose := fun st _ => st
  topicDescribe := memDescribe
  topicCreate := memCreate
  topicAlter := memAlter
  topicDrop := memDrop
  parseYDBEntityID := memParseYDBEntityID
  flattenYDBTopicDescription := fun d desc => (none, { d with name := desc })
  prepareYDBTopicAlterSettings := fun d _ => ["min_active_partitions", d.name]
  ydbTopicDefaultCodecs := [1, 2]
  ydbTopicAllowedCodecs := ["raw", "gzip", "zstd"]
  ydbTopicCodecNameToCodec := [("raw", 1), ("gzip", 2), ("zstd", 4)]
  ydbTopicDefaultMaxPartitionWriteSpeed := 1048576
  stringsToLower := fun s => String.mk (s.data.map Char.toLower)
  strconvQuote := fun s => "\"" ++ s ++ "\""

/-- A topic configuration of the in-memory example: topic `orders` under the
endpoint `ydb.local:2135`, identifier already assigned. -/
def memOrders : ResourceData where
  id := "ydb.local:2135/orders"
  database_endpoint := "ydb.local:2135"
  name := "orders"
  nameHasChange := false
  supported_codecs := none
  consumer := [ConsumerBlock.toMap { name := "billing", supported_codecs := none,
                                     starting_message_timestamp_ms := none }]
  retention_period_ms := 86400000
  partitions_count := 2

/-! ## A concrete environment for evaluating the table code

The state of the example backend is the list of scheme statements executed. -/

/-- Parsed partition keys of the example. -/
inductive KeyValue where
  | int (n : Nat)
  | text (s : String)
deriving DecidableEq, Repr

/-- Modelled from the spec: `parsePartitionKey` is declared outside the available
sources.  The spec says each key literal "is parsed according to the type of the
corresponding primary-key column" and that a parse failure is an error.  In this
example a literal at the types `Int64` and `Uint64` must be a run of decimal
digits and every literal is accepted as text at any other type. -/
def memParsePartitionKey (k typ : String) : Except String KeyValue :=
  if typ = "Int64" ∨ typ = "Uint64" then
    match digitsValue k.data with
    | some n => Except.ok (KeyValue.int n)
    | none => Except.error ("failed to parse partition key " ++ k ++ " as " ++ typ)
  else Except.ok (KeyValue.text k)

/-- The function `url.Parse` of the example: what follows `?` is one `key=value`
pair. -/
def memUrlParse (s : String) : Except String URL :=
  match s.data.span (fun ch => ch != '?') with
  | (_, []) => Except.ok { query := [] }
  | (_, _ :: q) =>
    match q.span (fun ch => ch != '=') with
    | (k, []) => Except.ok { query := [(String.mk k, "")] }
    | (k, _ :: v) => Except.ok { query := [(String.mk k, String.mk v)] }

/-- The example environment of the table code.  Modelled from the spec: the
method `handler.Read` is declared outside the available sources; the spec says
Read decodes the identifier first, and the example does only that. -/
def memTableEnv : TableEnv (List String) KeyValue where
  ParseYDBEntityID := memParseYDBEntityID
  urlParse := memUrlParse
  parsePartitionKey := memParsePartitionKey
  expandColumns := fun d => d.column
  expandIndexes := fun d => d.index
  expandPrimaryKey := fun d => d.primary_key
  expandColumnFamilies := fun d => d.family
  expandAttributes := fun d => d.attributes
  PrepareCreateRequest := fun r => "CREATE TABLE " ++ r.FullPath
  CreateDBConnection := fun st endpoint _ =>
    if endpoint = "" then (Except.error "empty endpoint", st) else (Except.ok 1, st)
  ExecuteSchemeQuery := fun st _ q => (none, st ++ [q])
  Close := fun st _ => st
  Read := fun st d =>
    match memParseYDBEntityID d.id with
    | Except.error err => ((diag.FromErr err, d), st)
    | Except.ok _ => (([], d), st)

/-- The table of the end-to-end scenario of the spec: path `t1`, one column
`id` of type `Int64`, primary key `id`, no identifier yet. -/
def memTableT1 : TableData where
  id := ""
  database_endpoint := "grpcs://ydb.local:2135/?database=/local"
  path := "t1"
  column := [{ Name := "id", Type_ := "Int64", Family := "", NotNull := true }]
  primary_key := ["id"]
  index := []
  family := []
  attributes := []
  ttl := none
  read_replicas_settings := none
  partitioning_settings := none
  primary_key_bloom_filter := none
  partitioningState := []
  partitioningPlanned := []

/-- A table with two columns `id` and `name`, primary key `id` alone, and one
split point holding two key literals. -/
def memTableTwoColumns : TableData :=
  { memTableT1 with
    path := "t2"
    column := [{ Name := "id", Type_ := "Int64", Family := "", NotNull := true },
               { Name := "name", Type_ := "Utf8", Family := "", NotNull := false }]
    partitioning_settings := some
      [{ uniform_partitions := none
         partition_at_keys := some [{ keys := ["10", "a"] }]
         auto_partitioning_min_partitions_count := none
         auto_partitioning_max_partitions_count := none
         auto_partitioning_by_load := none
         auto_partitioning_by_size_enabled := none }]
    partitioningPlanned :=
      [(2890668011,
        { uniform_partitions := none
          partition_at_keys := some [{ keys := ["10", "a"] }]
          auto_partitioning_min_partitions_count := none
          auto_partitioning_max_partitions_count := none
          auto_partitioning_by_load := none
          auto_partitioning_by_size_enabled := none })] }

/-- An element of the set `partitioning_settings` with one split point and a
uniform partition count. -/
def memPartitioning (key : String) (count : Int) : PartitioningConfig where
  uniform_partitions := some count
  partition_at_keys := some [{ keys := [key] }]
  auto_partitioning_min_partitions_count := some 0
  auto_partitioning_max_partitions_count := some 0
  auto_partitioning_by_load := some false
  auto_partitioning_by_size_enabled := none

/-- A table configuration in which both partitioning keys have a pending change:
the prior state holds the split point `10` and 4 uniform partitions, the plan the
split point `20` and 8 uniform partitions. -/
def memTablePending : TableData :=
  { memTableT1 with
    id := "ydb.local:2135/t1"
    partitioning_settings := some [memPartitioning "20" 8]
    partitioningState := [(1187371253, memPartitioning "10" 4)]
    partitioningPlanned := [(3162770105, memPartitioning "20" 8)] }

/-- A table configuration without pending change: state and plan both hold the
split point `10` and 4 uniform partitions. -/
def memTableLocalA : TableData :=
  { memTableT1 with
    id := "ydb.local:2135/t1"
    partitioning_settings := some [memPartitioning "10" 4]
    partitioningState := [(1187371253, memPartitioning "10" 4)]
    partitioningPlanned := [(1187371253, memPartitioning "10" 4)] }

/-- The same without pending change, with split point `20` and 8 partitions. -/
def memTableLocalB : TableData :=
  { memTableT1 with
    id := "ydb.local:2135/t1"
    partitioning_settings := some [memPartitioning "20" 8]
    partitioningState := [(3162770105, memPartitioning "20" 8)]
    partitioningPlanned := [(3162770105, memPartitioning "20" 8)] }

/-- A second remote partitioning description, different in every field. -/
def memRemoteSettingsOther : RemotePartitioningSettings where
  PartitioningBySize := FeatureFlag.FeatureDisabled
  PartitionSizeMb := 512
  PartitioningByLoad := FeatureFlag.FeatureEnabled
  MinPartitionsCount := 4
  MaxPartitionsCount := 8

/-- A remote partitioning description: partitioning by size enabled at 2048 MB,
by load disabled, between 1 and 50 partitions. -/
def memRemoteSettings : RemotePartitioningSettings where
  PartitioningBySize := FeatureFlag.FeatureEnabled
  PartitionSizeMb := 2048
  PartitioningByLoad := FeatureFlag.FeatureDisabled
  MinPartitionsCount := 1
  MaxPartitionsCount := 50

/-! ## Further example inputs -/

/-- The in-memory environment with a backend whose Describe call times out. -/
def memTopicEnvTimeout : TopicEnv (List String) String String :=
  { memTopicEnv with
    topicDescribe := fun st _ _ => (Except.error "transport: deadline exceeded", st) }

/-- The topic `orders` configured with two consumers of the same name. -/
def memOrdersDuplicate : ResourceData :=
  { memOrders with
    id := ""
    consumer := [ConsumerBlock.toMap { name := "billing", supported_codecs := none,
                                       starting_message_timestamp_ms := none },
                 ConsumerBlock.toMap { name := "billing", supported_codecs := some ["raw"],
                                       starting_message_timestamp_ms := some 5000 }] }

/-- The topic `orders` configured under an endpoint that refuses connections. -/
def memOrdersDown : ResourceData :=
  { memOrders with id := "", database_endpoint := "down:2135" }

/-- The table `t1` configured with an empty endpoint, which the example backend
refuses. -/
def memTableNoEndpoint : TableData :=
  { memTableT1 with database_endpoint := "" }

section TableCreateFrom

variable {σ κ : Type}

/-- The body of `handler.Create` after its first statement (lines 14-59), as a
function of the pair `tableResourceSchemaToTableResource` returned. -/
def handler.CreateFrom (env : TableEnv σ κ) (token : String) (d : TableData) (st : σ)
    (built : Except String (Option (Resource κ))) : TableOutcome σ :=
  match built with
  | Except.error err => ⟨diag.FromErr err, d, st, []⟩
  | Except.ok none =>
    ⟨[{ severity := Severity.Error, summary := "got nil resource, unreachable code",
        detail := "" }], d, st, []⟩
  | Except.ok (some tableResource0) =>
    let tableResource := { tableResource0 with Token := token }
    match env.CreateDBConnection st tableResource.DatabaseEndpoint tableResource.Token with
    | (Except.error err, st1) =>
      ⟨[{ severity := Severity.Error, summary := "failed to initialize table client",
          detail := err }], d, st1,
        [TableEvent.Open tableResource.DatabaseEndpoint tableResource.Token]⟩
    | (Except.ok db, st1) =>
      let q := env.PrepareCreateRequest tableResource
      match env.ExecuteSchemeQuery st1 db q with
      | (some err, st2) =>
        ⟨[{ severity := Severity.Error, summary := "failed to create table", detail := err }],
          d, env.Close st2 db,
          [TableEvent.Open tableResource.DatabaseEndpoint tableResource.Token,
            TableEvent.ExecuteSchemeQuery db q, TableEvent.Close db]⟩
      | (none, st2) =>
        let d1 := d.SetId tableResource.Path
        match env.Read st2 d1 with
        | ((diags, d2), st3) =>
          ⟨diags, d2, env.Close st3 db,
            [TableEvent.Open tableResource.DatabaseEndpoint tableResource.Token,
              TableEvent.ExecuteSchemeQuery db q, TableEvent.Read d1.id, TableEvent.Close db]⟩

end TableCreateFrom

end YDB

/-! # Theorems -/

namespace YDB

section TopicTheorems

variable {σ δ ο : Type}

/-- The events of `resourceYDBTopicRead` never include an Alter or a Create call. -/
theorem resourceYDBTopicRead_log_filter (env : TopicEnv σ δ ο) (token : String)
    (d : ResourceData) (st : σ) :
    (resourceYDBTopicRead env token d st).log.filter Event.isAlter = [] ∧
    (resourceYDBTopicRead env token d st).log.filter Event.isCreate = [] := by
  unfold resourceYDBTopicRead createYDBConnection
  cases env.parseYDBEntityID d.id with
  | error err => simp
  | ok topic =>
    simp only
    rcases hopen : env.ydbOpen st topic.prepareFullYDBEndpoint token with ⟨r, st1⟩
    cases r with
    | error err => simp [Event.isAlter, Event.isCreate]
    | ok c =>
      simp only
      rcases hd : env.topicDescribe st1 c topic.getEntityPath with ⟨r2, st2⟩
      cases r2 with
      | error e =>
        simp only
        split <;> simp [Event.isAlter, Event.isCreate]
      | ok desc =>
        simp only
        rcases hf : env.flattenYDBTopicDescription d desc with ⟨fe, d1⟩
        cases fe <;> simp [Event.isAlter, Event.isCreate]

/-- Claim C1: Topic Read and the topic data-source read: when Describe fails with an
error whose text contains "does not exist", the operation sets the identifier to
the empty string (changing nothing else), returns no diagnostics and never runs
the flattener; when Describe fails with any other error it returns one Error
diagnostic carrying the error text and leaves the resource data, identifier
included, unchanged. -/
theorem read_describe_failure (env : TopicEnv σ δ ο) (token : String) (d : ResourceData)
    (st : σ) :
    (∀ (topic : ydbEntity) (c : Conn) (e : String) (st1 st2 : σ),
      env.parseYDBEntityID d.id = Except.ok topic →
      env.ydbOpen st topic.prepareFullYDBEndpoint token = (Except.ok c, st1) →
      env.topicDescribe st1 c topic.getEntityPath = (Except.error e, st2) →
      (strings.Contains e "does not exist" = true →
        (resourceYDBTopicRead env token d st).diags = [] ∧
        (resourceYDBTopicRead env token d st).d = d.SetId "" ∧
        (resourceYDBTopicRead env token d st).d.id = "" ∧
        (resourceYDBTopicRead env token d st).log.filter Event.isFlatten = []) ∧
      (strings.Contains e "does not exist" = false →
        (resourceYDBTopicRead env token d st).diags =
          [{ severity := Severity.Error,
             summary := "resource: failed to describe topic: " ++ e, detail := "" }] ∧
        (resourceYDBTopicRead env token d st).d = d ∧
        (resourceYDBTopicRead env token d st).log.filter Event.isFlatten = [])) ∧
    (∀ (c : Conn) (e : String) (st1 st2 : σ),
      env.createYDBConnectionFn st d = (Except.ok c, st1) →
      env.topicDescribe st1 c d.name = (Except.error e, st2) →
      (strings.Contains e "does not exist" = true →
        (dataSourceYDBTopicRead env d st).diags = [] ∧
        (dataSourceYDBTopicRead env d st).d = d.SetId "" ∧
        (dataSourceYDBTopicRead env d st).d.id = "" ∧
        (dataSourceYDBTopicRead env d st).log.filter Event.isFlatten = []) ∧
      (strings.Contains e "does not exist" = false →
        (dataSourceYDBTopicRead env d st).diags =
          [{ severity := Severity.Error,
             summary := "datasource: failed to describe stream: " ++ e, detail := "" }] ∧
        (dataSourceYDBTopicRead env d st).d = d ∧
        (dataSourceYDBTopicRead env d st).log.filter Event.isFlatten = [])) := by
  constructor
  · intro topic c e st1 st2 hparse hopen hdesc
    constructor
    · intro hc
      simp [resourceYDBTopicRead, createYDBConnection, hparse, hopen, hdesc, hc,
        ResourceData.SetId, Event.isFlatten]
    · intro hc
      simp [resourceYDBTopicRead, createYDBConnection, hparse, hopen, hdesc, hc,
        diag.FromErr, Event.isFlatten]
  · intro c e st1 st2 hconn hdesc
    constructor
    · intro hc
      simp [dataSourceYDBTopicRead, hconn, hdesc, hc, ResourceData.SetId, Event.isFlatten]
    · intro hc
      simp [dataSourceYDBTopicRead, hconn, hdesc, hc, diag.FromErr, Event.isFlatten]

/-- Witness of claim C1 on the in-memory backend: the topic `orders` is absent, so both
reads clear the identifier and report nothing. -/
theorem read_describe_failure_witness :
    (resourceYDBTopicRead memTopicEnv "token" memOrders []).diags = [] ∧
    (resourceYDBTopicRead memTopicEnv "token" memOrders []).d.id = "" ∧
    (dataSourceYDBTopicRead memTopicEnv memOrders []).diags = [] ∧
    (dataSourceYDBTopicRead memTopicEnv memOrders []).d.id = "" := by
  have h := read_describe_failure memTopicEnv "token" memOrders []
  have h1 := (h.1 { endpoint := "ydb.local:2135", path := "orders" } 1
    "operation/SCHEME_ERROR: path does not exist" [] [] rfl rfl rfl).1 (by decide)
  have h2 := (h.2 1 "operation/SCHEME_ERROR: path does not exist" [] []
    rfl rfl).1 (by decide)
  exact ⟨h1.1, h1.2.2.1, h2.1, h2.2.2.1⟩

/-- The events of `resourceYDBTopicCreate` never include an Alter call. -/
theorem resourceYDBTopicCreate_log_filter (env : TopicEnv σ δ ο) (token : String)
    (d : ResourceData) (st : σ) :
    (resourceYDBTopicCreate env token d st).log.filter Event.isAlter = [] := by
  unfold resourceYDBTopicCreate createYDBConnection
  simp only
  rcases hopen : env.ydbOpen st d.database_endpoint token with ⟨r, st1⟩
  cases r with
  | error err => simp [Event.isAlter]
  | ok c =>
    simp only
    rcases hc : env.topicCreate st1 c (topicCreateRequest env d) with ⟨r2, st2⟩
    cases r2 with
    | some err => simp [Event.isAlter]
    | none =>
      simp [Event.isAlter, List.filter_append,
        (resourceYDBTopicRead_log_filter env token _ st2).1]

/-- Claim C2, the code evaluated: On the in-memory backend holding the
topic `orders`, the first Delete drops the topic and reports nothing; the second
Delete on the same identifier observes the not-found error of Drop and returns an
Error diagnostic instead of success. -/
theorem delete_second_call_reports_error :
    (resourceYDBTopicDelete memTopicEnv "token" memOrders ["orders"]).diags = [] ∧
    (resourceYDBTopicDelete memTopicEnv "token" memOrders ["orders"]).st = [] ∧
    (memTopicEnv.topicDrop [] 1 "orders").1 =
      some "operation/SCHEME_ERROR: path does not exist" ∧
    strings.Contains "operation/SCHEME_ERROR: path does not exist" "does not exist" = true ∧
    (resourceYDBTopicDelete memTopicEnv "token" memOrders
        (resourceYDBTopicDelete memTopicEnv "token" memOrders ["orders"]).st).diags =
      [{ severity := Severity.Error,
         summary := "failed to delete topic: operation/SCHEME_ERROR: path does not exist",
         detail := "" }] := by
  decide

/-- Claim C3, counterexample: Two updates with a changed `name` on the in-memory
backend.  In the first the connection does not open: the update returns an Error
diagnostic after the single Open event, without taking the create path.  In the
second the create path is taken and succeeds, and the identifier it leaves is the
very identifier the update was called with. -/
theorem update_rename_counterexample :
    ({ memOrders with id := "down:2135/orders", name := "orders-v2",
                      nameHasChange := true } : ResourceData).nameHasChange = true ∧
    (performYDBTopicUpdate memTopicEnv "token"
        { memOrders with id := "down:2135/orders", name := "orders-v2",
                         nameHasChange := true } ["orders"]).log =
      [Event.Open "down:2135"] ∧
    (performYDBTopicUpdate memTopicEnv "token"
        { memOrders with id := "down:2135/orders", name := "orders-v2",
                         nameHasChange := true } ["orders"]).diags ≠ [] ∧
    (performYDBTopicUpdate memTopicEnv "token"
        { memOrders with id := "ydb.local:2135/orders-v2", name := "orders-v2",
                         nameHasChange := true } []).diags = [] ∧
    (performYDBTopicUpdate memTopicEnv "token"
        { memOrders with id := "ydb.local:2135/orders-v2", name := "orders-v2",
                         nameHasChange := true } []).log.filter Event.isCreate ≠ [] ∧
    (performYDBTopicUpdate memTopicEnv "token"
        { memOrders with id := "ydb.local:2135/orders-v2", name := "orders-v2",
                         nameHasChange := true } []).d.id = "ydb.local:2135/orders-v2" := by
  decide

/-- Claim C3, amended: For every topic Update with a changed `name` whose identifier
decodes and whose connection opens, the update takes the create path: its
diagnostics and resource data are those of `resourceYDBTopicCreate`, and its events
are the Open of its own connection, then exactly the events of that create, then
the Close; no Alter is issued at all.  When the connection of the create opens and
the backend create call succeeds, Create sets the identifier to
`database_endpoint + "/" + name` (a new identifier unless the update was called
with exactly that string) and reads back on that identifier. -/
theorem update_rename_takes_create_path (env : TopicEnv σ δ ο) (token : String)
    (d : ResourceData) (st st1 : σ) (topic : ydbEntity) (c : Conn)
    (hparse : env.parseYDBEntityID d.id = Except.ok topic)
    (hopen : env.ydbOpen st topic.prepareFullYDBEndpoint token = (Except.ok c, st1))
    (hchange : d.nameHasChange = true) :
    (performYDBTopicUpdate env token d st).diags =
        (resourceYDBTopicCreate env token d st1).diags ∧
    (performYDBTopicUpdate env token d st).d = (resourceYDBTopicCreate env token d st1).d ∧
    (performYDBTopicUpdate env token d st).log =
        [Event.Open topic.prepareFullYDBEndpoint] ++
          (resourceYDBTopicCreate env token d st1).log ++ [Event.Close c] ∧
    (performYDBTopicUpdate env token d st).log.filter Event.isAlter = [] ∧
    (d.SetId (d.database_endpoint ++ "/" ++ d.name)).id =
        d.database_endpoint ++ "/" ++ d.name ∧
    (∀ (c2 : Conn) (st2 st3 : σ),
      env.ydbOpen st1 d.database_endpoint token = (Except.ok c2, st2) →
      env.topicCreate st2 c2 (topicCreateRequest env d) = (none, st3) →
      (resourceYDBTopicCreate env token d st1).diags =
        (resourceYDBTopicRead env token
          (d.SetId (d.database_endpoint ++ "/" ++ d.name)) st3).diags ∧
      (resourceYDBTopicCreate env token d st1).d =
        (resourceYDBTopicRead env token
          (d.SetId (d.database_endpoint ++ "/" ++ d.name)) st3).d ∧
      (resourceYDBTopicCreate env token d st1).log =
        [Event.Open d.database_endpoint, Event.Create c2 (topicCreateRequest env d)] ++
          (resourceYDBTopicRead env token
            (d.SetId (d.database_endpoint ++ "/" ++ d.name)) st3).log ++
          [Event.Close c2]) := by
  have hupd : performYDBTopicUpdate env token d st =
      ⟨(resourceYDBTopicCreate env token d st1).diags,
        (resourceYDBTopicCreate env token d st1).d,
        env.ydbClose (resourceYDBTopicCreate env token d st1).st c,
        [Event.Open topic.prepareFullYDBEndpoint] ++
          (resourceYDBTopicCreate env token d st1).log ++ [Event.Close c]⟩ := by
    simp [performYDBTopicUpdate, createYDBConnection, hparse, hopen, hchange]
  refine ⟨by rw [hupd], by rw [hupd], by rw [hupd], ?_, rfl, ?_⟩
  · rw [hupd]
    simp [Event.isAlter, List.filter_append, resourceYDBTopicCreate_log_filter]
  · intro c2 st2 st3 hopen2 hcreate
    simp [resourceYDBTopicCreate, createYDBConnection, hopen2, hcreate]

/-- Witness of claim C3 as amended on the in-memory backend: renaming `orders` to
`orders-v2` creates the new topic and sets the identifier built from the
configured endpoint and the new name. -/
theorem update_rename_takes_create_path_witness :
    (performYDBTopicUpdate memTopicEnv "token"
        { memOrders with name := "orders-v2", nameHasChange := true } ["orders"]).diags =
      (resourceYDBTopicCreate memTopicEnv "token"
        { memOrders with name := "orders-v2", nameHasChange := true } ["orders"]).diags ∧
    (resourceYDBTopicCreate memTopicEnv "token"
        { memOrders with name := "orders-v2", nameHasChange := true } ["orders"]).d.id =
      "ydb.local:2135/orders-v2" := by
  have h := update_rename_takes_create_path memTopicEnv "token"
    { memOrders with name := "orders-v2", nameHasChange := true } ["orders"] ["orders"]
    { endpoint := "ydb.local:2135", path := "orders" } 1 rfl rfl rfl
  exact ⟨h.1, by decide⟩

/-- Claim C4: Topic Update with an unchanged `name`, once the identifier decodes and
the connection opens, selects exactly one action.  If Describe reports not-found
the update delegates to Create: it returns Create's diagnostics and resource data,
its events are Open, Describe, the events of Create and Close, and no Alter is
issued.  If Describe succeeds it issues exactly one Alter call, with the option
list computed from the configuration and the description, and no create call; when
that Alter succeeds it returns the result of Read. -/
theorem update_unchanged_name_selects_one_action (env : TopicEnv σ δ ο) (token : String)
    (d : ResourceData) (st st1 : σ) (topic : ydbEntity) (c : Conn)
    (hparse : env.parseYDBEntityID d.id = Except.ok topic)
    (hopen : env.ydbOpen st topic.prepareFullYDBEndpoint token = (Except.ok c, st1))
    (hchange : d.nameHasChange = false) :
    (∀ (e : String) (st2 : σ),
      env.topicDescribe st1 c topic.getEntityPath = (Except.error e, st2) →
      strings.Contains e "does not exist" = true →
      (performYDBTopicUpdate env token d st).diags =
          (resourceYDBTopicCreate env token d st2).diags ∧
      (performYDBTopicUpdate env token d st).d = (resourceYDBTopicCreate env token d st2).d ∧
      (performYDBTopicUpdate env token d st).log =
          [Event.Open topic.prepareFullYDBEndpoint, Event.Describe c topic.getEntityPath] ++
            (resourceYDBTopicCreate env token d st2).log ++ [Event.Close c] ∧
      (performYDBTopicUpdate env token d st).log.filter Event.isAlter = []) ∧
    (∀ (desc : δ) (st2 : σ),
      env.topicDescribe st1 c topic.getEntityPath = (Except.ok desc, st2) →
      (performYDBTopicUpdate env token d st).log.filter Event.isAlter =
          [Event.Alter c topic.getEntityPath (env.prepareYDBTopicAlterSettings d desc)] ∧
      (performYDBTopicUpdate env token d st).log.filter Event.isCreate = [] ∧
      (∀ (st3 : σ),
        env.topicAlter st2 c topic.getEntityPath (env.prepareYDBTopicAlterSettings d desc) =
          (none, st3) →
        (performYDBTopicUpdate env token d st).diags =
            (resourceYDBTopicRead env token d st3).diags ∧
        (performYDBTopicUpdate env token d st).d = (resourceYDBTopicRead env token d st3).d ∧
        (performYDBTopicUpdate env token d st).log =
            [Event.Open topic.prepareFullYDBEndpoint,
              Event.Describe c topic.getEntityPath,
              Event.Alter c topic.getEntityPath (env.prepareYDBTopicAlterSettings d desc)] ++
              (resourceYDBTopicRead env token d st3).log ++ [Event.Close c])) := by
  constructor
  · intro e st2 hdesc hnf
    have hupd : performYDBTopicUpdate env token d st =
        ⟨(resourceYDBTopicCreate env token d st2).diags,
          (resourceYDBTopicCreate env token d st2).d,
          env.ydbClose (resourceYDBTopicCreate env token d st2).st c,
          [Event.Open topic.prepareFullYDBEndpoint, Event.Describe c topic.getEntityPath] ++
            (resourceYDBTopicCreate env token d st2).log ++ [Event.Close c]⟩ := by
      simp [performYDBTopicUpdate, createYDBConnection, hparse, hopen, hchange, hdesc, hnf]
    refine ⟨by rw [hupd], by rw [hupd], by rw [hupd], ?_⟩
    rw [hupd]
    simp [Event.isAlter, List.filter_append, resourceYDBTopicCreate_log_filter]
  · intro desc st2 hdesc
    rcases halter : env.topicAlter st2 c topic.getEntityPath
        (env.prepareYDBTopicAlterSettings d desc) with ⟨r, st3⟩
    cases r with
    | some err =>
      refine ⟨?_, ?_, ?_⟩
      · simp [performYDBTopicUpdate, createYDBConnection, hparse, hopen, hchange, hdesc,
          halter, Event.isAlter]
      · simp [performYDBTopicUpdate, createYDBConnection, hparse, hopen, hchange, hdesc,
          halter, Event.isCreate]
      · intro st3' h
        simp at h
    | none =>
      have hupd : performYDBTopicUpdate env token d st =
          ⟨(resourceYDBTopicRead env token d st3).diags,
            (resourceYDBTopicRead env token d st3).d,
            env.ydbClose (resourceYDBTopicRead env token d st3).st c,
            [Event.Open topic.prepareFullYDBEndpoint,
              Event.Describe c topic.getEntityPath,
              Event.Alter c topic.getEntityPath (env.prepareYDBTopicAlterSettings d desc)] ++
              (resourceYDBTopicRead env token d st3).log ++ [Event.Close c]⟩ := by
        simp [performYDBTopicUpdate, createYDBConnection, hparse, hopen, hchange, hdesc,
          halter]
      refine ⟨?_, ?_, ?_⟩
      · rw [hupd]
        simp [Event.isAlter, List.filter_append,
          (resourceYDBTopicRead_log_filter env token d st3).1]
      · rw [hupd]
        simp [Event.isCreate, List.filter_append,
          (resourceYDBTopicRead_log_filter env token d st3).2]
      · intro st3' h
        have hst : st3 = st3' := by
          have := congrArg Prod.snd h
          simpa using this
        subst hst
        rw [hupd]
        simp

/-- Witness of claim C4 on the in-memory backend holding `orders`: the update issues the
single Alter call and no create call, and returns without diagnostics. -/
theorem update_unchanged_name_selects_one_action_witness :
    (performYDBTopicUpdate memTopicEnv "token" memOrders ["orders"]).log.filter
        Event.isAlter =
      [Event.Alter 1 "orders" ["min_active_partitions", "orders"]] ∧
    (performYDBTopicUpdate memTopicEnv "token" memOrders ["orders"]).log.filter
        Event.isCreate = [] ∧
    (performYDBTopicUpdate memTopicEnv "token" memOrders ["orders"]).diags =
      (resourceYDBTopicRead memTopicEnv "token" memOrders ["orders"]).diags := by
  have h := (update_unchanged_name_selects_one_action memTopicEnv "token" memOrders
    ["orders"] ["orders"] { endpoint := "ydb.local:2135", path := "orders" } 1
    rfl rfl rfl).2 "orders" ["orders"] rfl
  exact ⟨h.1, h.2.1, (h.2.2 ["orders"] rfl).1⟩

/-- Every create call `resourceYDBTopicCreate` logs carries the request built by
`topicCreateRequest`. -/
theorem resourceYDBTopicCreate_request (env : TopicEnv σ δ ο) (token : String)
    (d : ResourceData) (st : σ) (c : Conn) (req : CreateRequest)
    (h : Event.Create c req ∈ (resourceYDBTopicCreate env token d st).log) :
    req = topicCreateRequest env d := by
  have hread : ∀ (d1 : ResourceData) (st2 : σ),
      Event.Create c req ∉ (resourceYDBTopicRead env token d1 st2).log := by
    intro d1 st2 hmem
    have hf := (resourceYDBTopicRead_log_filter env token d1 st2).2
    have : Event.Create c req ∈
        (resourceYDBTopicRead env token d1 st2).log.filter Event.isCreate :=
      List.mem_filter.2 ⟨hmem, rfl⟩
    rw [hf] at this
    cases this
  unfold resourceYDBTopicCreate createYDBConnection at h
  simp only at h
  rcases hopen : env.ydbOpen st d.database_endpoint token with ⟨r, st1⟩
  rw [hopen] at h
  cases r with
  | error err => simp at h
  | ok c1 =>
    simp only at h
    rcases hc : env.topicCreate st1 c1 (topicCreateRequest env d) with ⟨r2, st2⟩
    rw [hc] at h
    cases r2 with
    | some err =>
      simp at h
      exact h.2
    | none =>
      simp only [List.mem_append, List.mem_singleton, List.mem_cons, List.not_mem_nil,
        or_false] at h
      rcases h with ((h | h) | h) | h
      · cases h
      · cases h
        rfl
      · exact absurd h (hread _ _)
      · cases h

/-- The codec lists `resourceYDBTopicCreate` builds.  Without topic-level
`supported_codecs` the request carries `ydbTopicDefaultCodecs`.  A consumer whose
map entry is a list gets the codecs of that list, looked up by lower-cased name;
so a consumer block without codec list, which arrives with the empty list, gets
the empty codec list. -/
theorem topicCreateRequest_codecs (env : TopicEnv σ δ ο) (d : ResourceData) :
    (d.supported_codecs = none →
      (topicCreateRequest env d).supportedCodecs = env.ydbTopicDefaultCodecs) ∧
    (∀ (cc : ConsumerConfig) (l : List String), cc.supported_codecs = some l →
      (topicConsumer env cc).SupportedCodecs =
        l.map (fun codec => codecLookup env.ydbTopicCodecNameToCodec
          (env.stringsToLower codec))) ∧
    (∀ (b : ConsumerBlock), b.supported_codecs = none →
      (topicConsumer env b.toMap).SupportedCodecs = []) := by
  refine ⟨?_, ?_, ?_⟩
  · intro h
    simp [topicCreateRequest, topicSupportedCodecs, h]
  · intro cc l h
    simp [topicConsumer, h]
  · intro b h
    simp [topicConsumer, ConsumerBlock.toMap, h]

/-- Claim C10, the code evaluated: topic Create on the topic `orders`, configured
without `supported_codecs` and with the consumer block `billing` that has no codec
list.  The create call carries the baseline list for the topic, as the claim says;
for the consumer it carries the empty codec list, not the codecs of the allowed
list: the block arrives with the empty list, the assertion to a list succeeds and
the branch that appends `ydbTopicAllowedCodecs` is not taken. -/
theorem consumer_without_codec_list_gets_no_codecs :
    memOrders.supported_codecs = none ∧
    memOrders.consumer =
      [ConsumerBlock.toMap { name := "billing", supported_codecs := none,
                             starting_message_timestamp_ms := none }] ∧
    memOrders.consumer.map (fun cc => cc.supported_codecs) = [some []] ∧
    memTopicEnv.ydbTopicDefaultCodecs = [1, 2] ∧
    memTopicEnv.ydbTopicAllowedCodecs.map
        (fun n => codecLookup memTopicEnv.ydbTopicCodecNameToCodec n) = [1, 2, 4] ∧
    (resourceYDBTopicCreate memTopicEnv "token" memOrders []).log.filter Event.isCreate =
      [Event.Create 1
        { path := "orders"
          supportedCodecs := [1, 2]
          partitionWriteBurstBytes := 1048576
          partitionWriteSpeedBytesPerSecond := 1048576
          retentionPeriod := 86400000000000
          minActivePartitions := 2
          consumers := [{ Name := "billing", SupportedCodecs := [], ReadFrom := 0 }] }] := by
  decide

end TopicTheorems

section TableTheorems

variable {σ κ : Type}

/-- Claim C5, the code evaluated: Table Create on the end-to-end
scenario of the spec (path `t1`, database `/local`): the resource is built with
full path `/local/t1`, the connection opens and the scheme statement runs, and the
identifier set on the resource and handed to Read is the bare configured path
`t1`, which is not the endpoint followed by the full path. -/
theorem table_create_identifier_is_bare_path :
    (tableResourceSchemaToTableResource memTableEnv memTableT1).toOption.join.map
        (fun r => (r.DatabaseEndpoint, r.FullPath, r.Path)) =
      some ("grpcs://ydb.local:2135/?database=/local", "/local/t1", "t1") ∧
    (handler.Create memTableEnv "token" memTableT1 []).log =
      [TableEvent.Open "grpcs://ydb.local:2135/?database=/local" "token",
        TableEvent.ExecuteSchemeQuery 1 "CREATE TABLE /local/t1",
        TableEvent.Read "t1", TableEvent.Close 1] ∧
    (handler.Create memTableEnv "token" memTableT1 []).d.id = "t1" ∧
    "t1" ≠ "grpcs://ydb.local:2135/?database=/local" ++ "/" ++ "/local/t1" ∧
    strings.Contains "t1" "/local" = false := by
  decide

/-- The inner loop of `expandPartitionAtKeys` fails when more literals remain than
columns from the current index on. -/
theorem expandKeysLoop_too_many (parse : String → String → Except String κ)
    (cols : List Column) :
    ∀ (ks : List String) (i : Nat) (acc : List κ),
      i ≤ cols.length → cols.length < i + ks.length →
      ∃ e, expandKeysLoop parse cols i ks acc = Except.error e := by
  intro ks
  induction ks with
  | nil => intro i acc h1 h2; simp at h2; omega
  | cons k ks ih =>
    intro i acc h1 h2
    unfold expandKeysLoop
    by_cases hi : i = cols.length
    · simp [hi]
    · have hlt : i < cols.length := by omega
      simp only [hi, if_false, List.getElem?_eq_getElem hlt]
      cases hp : parse k (cols[i]).Type_ with
      | error e => exact ⟨e, rfl⟩
      | ok got =>
        simp only
        exact ih (i + 1) (acc ++ [got]) (by omega) (by simp at h2; omega)

/-- The outer loop of `expandPartitionAtKeys` fails when some tuple has more
entries than there are columns. -/
theorem expandTuplesLoop_too_many (parse : String → String → Except String κ)
    (cols : List Column) :
    ∀ (p : List PartitionAtKeysConfig) (res : List (PartitionAtKeys κ)),
      (∃ vv ∈ p, cols.length < vv.keys.length) →
      ∃ e, expandTuplesLoop parse cols p res = Except.error e := by
  intro p
  induction p with
  | nil => intro res h; simp at h
  | cons v vs ih =>
    intro res h
    unfold expandTuplesLoop
    cases hk : expandKeysLoop parse cols 0 v.keys [] with
    | error e => exact ⟨e, rfl⟩
    | ok keys =>
      simp only
      rcases h with ⟨vv, hmem, hlen⟩
      rcases List.mem_cons.1 hmem with rfl | hmem
      · obtain ⟨e, he⟩ := expandKeysLoop_too_many parse cols vv.keys 0 [] (by omega)
          (by omega)
        rw [he] at hk
        cases hk
      · exact ih _ ⟨vv, hmem, hlen⟩

/-- The function `expandPartitionAtKeys` returns an error, hence no settings,
whenever some tuple has more entries than the column list it is given. -/
theorem expandPartitionAtKeys_too_many (parse : String → String → Except String κ)
    (p : List PartitionAtKeysConfig) (cols : List Column)
    (h : ∃ vv ∈ p, cols.length < vv.keys.length) :
    ∃ e, expandPartitionAtKeys parse p cols = Except.error e := by
  unfold expandPartitionAtKeys
  have hne : p.length ≠ 0 := by
    rcases h with ⟨vv, hmem, _⟩
    have := List.length_pos_of_mem hmem
    omega
  simp only [hne, if_false]
  exact expandTuplesLoop_too_many parse cols p [] h

/-- Claim C6, the code evaluated: A table with the columns `id` and
`name` and the single primary-key column `id` (N = 1), configured with a split
tuple of two literals: building the resource succeeds and the partitioning
settings hold the two-key tuple, because the bound is taken against the whole
column list that `tableResourceSchemaToTableResource` passes down. -/
theorem partition_tuple_longer_than_primary_key_accepted :
    (memTableEnv.expandPrimaryKey memTableTwoColumns).length = 1 ∧
    (memTableEnv.expandColumns memTableTwoColumns).length = 2 ∧
    memTableTwoColumns.partitioning_settings.map
        (fun l => l.map (fun m => m.partition_at_keys.map
          (fun t => t.map (fun vv => vv.keys.length)))) = some [some [2]] ∧
    (tableResourceSchemaToTableResource memTableEnv memTableTwoColumns).toOption.join.map
        (fun r => (r.PrimaryKey.Columns, r.PartitioningSettings.map (fun ps => ps.PartitionAtKeys))) =
      some (["id"], some [{ Keys := [KeyValue.int 10, KeyValue.text "a"] }]) := by
  decide

/-- The inner loop of `expandPartitionAtKeys` succeeds when the remaining literals
are no more than the remaining columns and each parses at the type of the column
in its position; the keys are appended in order. -/
theorem expandKeysLoop_ok (parse : String → String → Except String κ) (cols : List Column) :
    ∀ (ks : List String) (i : Nat) (acc : List κ),
      i + ks.length ≤ cols.length →
      (∀ kc ∈ ks.zip (cols.drop i), (parse kc.1 kc.2.Type_).toBool = true) →
      ∃ vs, expandKeysLoop parse cols i ks acc = Except.ok (acc ++ vs) ∧
        List.Forall₂ (fun kc v => parse kc.1 kc.2.Type_ = Except.ok v)
          (ks.zip (cols.drop i)) vs := by
  intro ks
  induction ks with
  | nil =>
    intro i acc _ _
    exact ⟨[], by simp [expandKeysLoop], by simp⟩
  | cons k ks ih =>
    intro i acc hlen hparse
    have hlt : i < cols.length := by simp at hlen; omega
    have hdrop : cols.drop i = cols[i] :: cols.drop (i + 1) := List.drop_eq_getElem_cons hlt
    rw [hdrop] at hparse ⊢
    unfold expandKeysLoop
    simp only [Nat.ne_of_lt hlt, if_false, List.getElem?_eq_getElem hlt]
    have h0 := hparse (k, cols[i])
      (by rw [List.zip_cons_cons]; exact List.mem_cons_self _ _)
    cases hp : parse k (cols[i]).Type_ with
    | error e => simp [hp, Except.toBool] at h0
    | ok got =>
      simp only
      obtain ⟨vs, hvs, hall⟩ := ih (i + 1) (acc ++ [got]) (by simp at hlen; omega)
        (fun kc hkc => hparse kc
          (by rw [List.zip_cons_cons]; exact List.mem_cons_of_mem _ hkc))
      refine ⟨got :: vs, by simp [hvs], ?_⟩
      simp only [List.zip_cons_cons]
      exact List.Forall₂.cons hp hall

/-- The outer loop of `expandPartitionAtKeys` succeeds under the same conditions
on every tuple; the results are appended in order. -/
theorem expandTuplesLoop_ok (parse : String → String → Except String κ) (cols : List Column) :
    ∀ (p : List PartitionAtKeysConfig) (res : List (PartitionAtKeys κ)),
      (∀ vv ∈ p, vv.keys.length ≤ cols.length) →
      (∀ vv ∈ p, ∀ kc ∈ vv.keys.zip cols, (parse kc.1 kc.2.Type_).toBool = true) →
      ∃ out, expandTuplesLoop parse cols p res = Except.ok (res ++ out) ∧
        List.Forall₂
          (fun vv pk => pk.Keys.length = vv.keys.length ∧
            List.Forall₂ (fun kc v => parse kc.1 kc.2.Type_ = Except.ok v)
              (vv.keys.zip cols) pk.Keys) p out := by
  intro p
  induction p with
  | nil =>
    intro res _ _
    exact ⟨[], by simp [expandTuplesLoop], by simp⟩
  | cons v vs ih =>
    intro res hlen hparse
    have hv : v.keys.length ≤ cols.length := hlen v (by simp)
    obtain ⟨keys, hkeys, hall⟩ := expandKeysLoop_ok parse cols v.keys 0 []
      (by omega) (by simpa using hparse v (by simp))
    obtain ⟨out, hout, hrest⟩ := ih (res ++ [{ Keys := keys }])
      (fun vv hvv => hlen vv (by simp [hvv]))
      (fun vv hvv => hparse vv (by simp [hvv]))
    have hall2 : List.Forall₂ (fun kc v => parse kc.1 kc.2.Type_ = Except.ok v)
        (v.keys.zip cols) keys := by simpa using hall
    refine ⟨{ Keys := keys } :: out, ?_, ?_⟩
    · unfold expandTuplesLoop
      simp only [hkeys, List.nil_append]
      simp [hout]
    · refine List.Forall₂.cons ⟨?_, hall2⟩ hrest
      have := hall2.length_eq
      simp only [List.length_zip] at this
      show keys.length = v.keys.length
      omega

/-- Claim C7, counterexample: One column of type `Int64` and one split tuple with the
single literal `abc`: the tuple has no more entries than there are columns, yet
`expandPartitionAtKeys` returns the parse error. -/
theorem expandPartitionAtKeys_parse_failure :
    ([{ keys := ["abc"] }] : List PartitionAtKeysConfig).all
        (fun vv => decide (vv.keys.length ≤ memTableT1.column.length)) = true ∧
    expandPartitionAtKeys memParsePartitionKey [{ keys := ["abc"] }] memTableT1.column =
      Except.error "failed to parse partition key abc as Int64" := by
  exact ⟨by decide, rfl⟩

/-- Claim C7, amended: For every column list and every split-key list in which each
tuple has at most as many entries as there are columns and every literal parses at
the type of the column in its position, `expandPartitionAtKeys` succeeds; its
result has one `PartitionAtKeys` per configured tuple, in the configured order,
each holding exactly as many keys as the tuple had entries, key `i` being the parse
of literal `i` at the type of column `i`. -/
theorem expandPartitionAtKeys_accepts (parse : String → String → Except String κ)
    (p : List PartitionAtKeysConfig) (cols : List Column)
    (hlen : ∀ vv ∈ p, vv.keys.length ≤ cols.length)
    (hparse : ∀ vv ∈ p, ∀ kc ∈ vv.keys.zip cols, (parse kc.1 kc.2.Type_).toBool = true) :
    ∃ out, expandPartitionAtKeys parse p cols = Except.ok out ∧
      out.length = p.length ∧
      List.Forall₂
        (fun vv pk => pk.Keys.length = vv.keys.length ∧
          List.Forall₂ (fun kc v => parse kc.1 kc.2.Type_ = Except.ok v)
            (vv.keys.zip cols) pk.Keys) p out := by
  obtain ⟨out, hout, hall⟩ := expandTuplesLoop_ok parse cols p [] hlen hparse
  refine ⟨out, ?_, hall.length_eq.symm, hall⟩
  unfold expandPartitionAtKeys
  by_cases hp : p.length = 0
  · have hnil : p = [] := List.length_eq_zero.1 hp
    subst hnil
    cases hall
    simp
  · simp only [hp, if_false]
    simpa using hout

/-- Witness of claim C7 as amended: two columns, a tuple with one integer literal and an
empty tuple. -/
theorem expandPartitionAtKeys_accepts_witness :
    ∃ out, expandPartitionAtKeys memParsePartitionKey [{ keys := ["10"] }, { keys := [] }]
        memTableTwoColumns.column = Except.ok out ∧
      out.length = 2 ∧
      List.Forall₂
        (fun (vv : PartitionAtKeysConfig) (pk : PartitionAtKeys KeyValue) =>
          pk.Keys.length = vv.keys.length ∧
          List.Forall₂
            (fun (kc : String × Column) v => memParsePartitionKey kc.1 kc.2.Type_ = Except.ok v)
            (vv.keys.zip memTableTwoColumns.column) pk.Keys)
        ([{ keys := ["10"] }, { keys := [] }] : List PartitionAtKeysConfig) out :=
  expandPartitionAtKeys_accepts memParsePartitionKey [{ keys := ["10"] }, { keys := [] }]
    memTableTwoColumns.column (by decide) (by decide)

/-- Both keys the flattener reads name an absent element of the set
`partitioning_settings`: neither `partition_at_keys` nor `uniform_partitions` is
the numeral of a hash code.  So for every configuration and every remote
description neither key has a change and both are emitted as the empty map. -/
theorem flatten_split_fields_empty (d : TableData) (settings : RemotePartitioningSettings) :
    d.HasChange "partitioning_settings.partition_at_keys" = false ∧
    d.HasChange "partitioning_settings.uniform_partitions" = false ∧
    (flattenTablePartitioningSettings d settings).map
        (fun m => (m.partition_at_keys, m.uniform_partitions)) =
      [(FlatValue.emptyMap, FlatValue.emptyMap)] := by
  have h1 : partitioningAddressPart "partitioning_settings.partition_at_keys" =
      some "partition_at_keys" := by decide
  have h2 : partitioningAddressPart "partitioning_settings.uniform_partitions" =
      some "uniform_partitions" := by decide
  have h3 : setElementCode "partition_at_keys" = none := by decide
  have h4 : setElementCode "uniform_partitions" = none := by decide
  simp [flattenTablePartitioningSettings, TableData.HasChange, TableData.GetChange,
    TableData.Get, readPartitioningKey, readSetElement, h1, h2, h3, h4]

/-- Claim C8, the code evaluated: a table whose prior state holds the split point
`10` and 4 uniform partitions and whose plan holds the split point `20` and 8
uniform partitions, so that both fields have a pending change.  The flattener finds
no change at either key and emits the empty map for both fields: neither the
pending split point `20` nor the pending count 8 is written. -/
theorem flatten_pending_change_emits_empty_map :
    memTablePending.partitioningState.map
        (fun e => (e.2.partition_at_keys, e.2.uniform_partitions)) =
      [(some [{ keys := ["10"] }], some 4)] ∧
    memTablePending.partitioningPlanned.map
        (fun e => (e.2.partition_at_keys, e.2.uniform_partitions)) =
      [(some [{ keys := ["20"] }], some 8)] ∧
    memTablePending.HasChange "partitioning_settings.partition_at_keys" = false ∧
    memTablePending.HasChange "partitioning_settings.uniform_partitions" = false ∧
    (flattenTablePartitioningSettings memTablePending memRemoteSettings).map
        (fun m => (m.partition_at_keys, m.uniform_partitions)) =
      [(FlatValue.emptyMap, FlatValue.emptyMap)] ∧
    (flattenTablePartitioningSettings memTablePending memRemoteSettings).map
        (fun m => m.partition_at_keys) ≠ [FlatValue.keys [{ keys := ["20"] }]] ∧
    (flattenTablePartitioningSettings memTablePending memRemoteSettings).map
        (fun m => m.uniform_partitions) ≠ [FlatValue.int 8] := by
  decide

/-- Claim C9, counterexample: a table without pending change (split point `10`, 4
uniform partitions in state and plan) flattened against two remote descriptions
that differ in every field.  For `partition_at_keys` and `uniform_partitions` the
flattener emits, both times, the empty map it reads from the resource data: not a
list of split points, not a partition count, and nothing that varies with the
remote description. -/
theorem flatten_split_fields_counterexample :
    memTableLocalA.HasChange "partitioning_settings.partition_at_keys" = false ∧
    memTableLocalA.HasChange "partitioning_settings.uniform_partitions" = false ∧
    (flattenTablePartitioningSettings memTableLocalA memRemoteSettings).map
        (fun m => (m.partition_at_keys, m.uniform_partitions)) =
      [(memTableLocalA.Get "partitioning_settings.partition_at_keys",
        memTableLocalA.Get "partitioning_settings.uniform_partitions")] ∧
    (flattenTablePartitioningSettings memTableLocalA memRemoteSettings).map
        (fun m => (m.partition_at_keys, m.uniform_partitions)) =
      [(FlatValue.emptyMap, FlatValue.emptyMap)] ∧
    (flattenTablePartitioningSettings memTableLocalA memRemoteSettingsOther).map
        (fun m => (m.partition_at_keys, m.uniform_partitions)) =
      [(FlatValue.emptyMap, FlatValue.emptyMap)] ∧
    (flattenTablePartitioningSettings memTableLocalA memRemoteSettings).map
        (fun m => m.partition_at_keys) ≠ [FlatValue.keys [{ keys := ["10"] }]] ∧
    (flattenTablePartitioningSettings memTableLocalA memRemoteSettings).map
        (fun m => m.uniform_partitions) ≠ [FlatValue.int 4] ∧
    (flattenTablePartitioningSettings memTableLocalA memRemoteSettings).map
        (fun m => m.uniform_partitions) ≠ [FlatValue.int 1] ∧
    (flattenTablePartitioningSettings memTableLocalA memRemoteSettings).map
        (fun m => m.uniform_partitions) ≠ [FlatValue.int 50] := by
  decide

/-- Claim C9, amended: for every configuration and every remote description,
`flattenTablePartitioningSettings` emits one map in which the five fields
`auto_partitioning_by_size_enabled`, `auto_partitioning_by_load`,
`auto_partitioning_size_mb`, `auto_partitioning_min_partitions_count` and
`auto_partitioning_max_partitions_count` are derived from the remote description
alone (feature flags as `== FeatureEnabled`), whatever the local configuration
and whether or not a change is pending.  The fields `partition_at_keys` and
`uniform_partitions` are not derived from the remote description: they are read
from the resource data and are the same whatever the remote description is. -/
theorem flatten_remote_fields (d : TableData)
    (settings settingsOther : RemotePartitioningSettings) :
    (flattenTablePartitioningSettings d settings).map
        (fun m => (m.auto_partitioning_by_size_enabled, m.auto_partitioning_by_load,
          m.auto_partitioning_size_mb, m.auto_partitioning_min_partitions_count,
          m.auto_partitioning_max_partitions_count)) =
      [(decide (settings.PartitioningBySize = FeatureFlag.FeatureEnabled),
        decide (settings.PartitioningByLoad = FeatureFlag.FeatureEnabled),
        settings.PartitionSizeMb, settings.MinPartitionsCount, settings.MaxPartitionsCount)] ∧
    (flattenTablePartitioningSettings d settings).map
        (fun m => (m.partition_at_keys, m.uniform_partitions)) =
      [(if d.HasChange "partitioning_settings.partition_at_keys" then
          (d.GetChange "partitioning_settings.partition_at_keys").1
        else d.Get "partitioning_settings.partition_at_keys",
        if d.HasChange "partitioning_settings.uniform_partitions" then
          (d.GetChange "partitioning_settings.uniform_partitions").1
        else d.Get "partitioning_settings.uniform_partitions")] ∧
    (flattenTablePartitioningSettings d settings).map
        (fun m => (m.partition_at_keys, m.uniform_partitions)) =
      (flattenTablePartitioningSettings d settingsOther).map
        (fun m => (m.partition_at_keys, m.uniform_partitions)) := by
  refine ⟨?_, ?_, ?_⟩ <;> simp [flattenTablePartitioningSettings]

end TableTheorems

/-! ## Failure reporting and atomicity of Create -/

section FailureTheorems

variable {σ τ δ ο κ : Type}

/-- A list of characters contains each of its suffixes. -/
theorem containsChars_append_right (a b : List Char) : containsChars (a ++ b) b = true := by
  induction a with
  | nil =>
    cases b with
    | nil => rfl
    | cons c cs => simp [containsChars]
  | cons c a ih =>
    simp [containsChars, ih]

/-- A message built by wrapping an error text in a context contains that text. -/
theorem strings_Contains_wrap (context e : String) :
    strings.Contains (context ++ e) e = true := by
  simp [strings.Contains, containsChars_append_right]

/-- The method `handler.Create` is `handler.CreateFrom` on the pair its first
statement returns. -/
theorem handler_Create_eq_CreateFrom (env : TableEnv σ κ) (token : String) (d : TableData)
    (st : σ) :
    handler.Create env token d st =
      handler.CreateFrom env token d st (tableResourceSchemaToTableResource env d) := by
  unfold handler.Create handler.CreateFrom
  rfl

/-- A doubly wrapped error text still contains the innermost text. -/
theorem strings_Contains_wrap2 (outer inner e : String) :
    strings.Contains (outer ++ (inner ++ e)) e = true := by
  rw [← String.append_assoc]
  exact strings_Contains_wrap _ e

/-- Failure sites of the topic handlers that keep the error text: a failed
connection in Read, Update, Delete and Create, a failed Describe in Read that is
not a not-found signal, a failed backend create call, a failed Alter and a failed
Drop each give one Error diagnostic whose summary contains the text of the
lower-level error. -/
theorem topic_failure_sites_wrap (env : TopicEnv σ δ ο) (token : String)
    (d : ResourceData) (st : σ) :
    (∀ (topic : ydbEntity) (e : String) (st1 : σ),
      env.parseYDBEntityID d.id = Except.ok topic →
      env.ydbOpen st topic.prepareFullYDBEndpoint token = (Except.error e, st1) →
      (∃ s, (resourceYDBTopicRead env token d st).diags =
          [{ severity := Severity.Error, summary := s, detail := "" }] ∧
        strings.Contains s e = true) ∧
      (∃ s, (performYDBTopicUpdate env token d st).diags =
          [{ severity := Severity.Error, summary := s, detail := "" }] ∧
        strings.Contains s e = true) ∧
      (∃ s, (resourceYDBTopicDelete env token d st).diags =
          [{ severity := Severity.Error, summary := s, detail := "" }] ∧
        strings.Contains s e = true)) ∧
    (∀ (topic : ydbEntity) (c : Conn) (e : String) (st1 st2 : σ),
      env.parseYDBEntityID d.id = Except.ok topic →
      env.ydbOpen st topic.prepareFullYDBEndpoint token = (Except.ok c, st1) →
      (env.topicDescribe st1 c topic.getEntityPath = (Except.error e, st2) →
        strings.Contains e "does not exist" = false →
        ∃ s, (resourceYDBTopicRead env token d st).diags =
            [{ severity := Severity.Error, summary := s, detail := "" }] ∧
          strings.Contains s e = true) ∧
      (env.topicDrop st1 c topic.getEntityPath = (some e, st2) →
        ∃ s, (resourceYDBTopicDelete env token d st).diags =
            [{ severity := Severity.Error, summary := s, detail := "" }] ∧
          strings.Contains s e = true) ∧
      (∀ (desc : δ) (st3 : σ), d.nameHasChange = false →
        env.topicDescribe st1 c topic.getEntityPath = (Except.ok desc, st2) →
        env.topicAlter st2 c topic.getEntityPath (env.prepareYDBTopicAlterSettings d desc) =
          (some e, st3) →
        ∃ s, (performYDBTopicUpdate env token d st).diags =
            [{ severity := Severity.Error, summary := s, detail := "" }] ∧
          strings.Contains s e = true)) ∧
    (∀ (e : String) (st1 : σ),
      env.ydbOpen st d.database_endpoint token = (Except.error e, st1) →
      ∃ s, (resourceYDBTopicCreate env token d st).diags =
          [{ severity := Severity.Error, summary := s, detail := "" }] ∧
        strings.Contains s e = true) ∧
    (∀ (c : Conn) (e : String) (st1 st2 : σ),
      env.ydbOpen st d.database_endpoint token = (Except.ok c, st1) →
      env.topicCreate st1 c (topicCreateRequest env d) = (some e, st2) →
      ∃ s, (resourceYDBTopicCreate env token d st).diags =
          [{ severity := Severity.Error, summary := s, detail := "" }] ∧
        strings.Contains s e = true) := by
  refine ⟨?_, ?_, ?_, ?_⟩
  · intro topic e st1 hparse hopen
    refine ⟨⟨"failed to initialize ydb-topic control plane client: " ++
          ("failed to create control-plane client: " ++ e), ?_,
        strings_Contains_wrap2 _ _ e⟩,
      ⟨"failed to initialize ydb-topic control plane client: " ++
          ("failed to create control-plane client: " ++ e), ?_,
        strings_Contains_wrap2 _ _ e⟩,
      ⟨"failed to initialize ydb-topic control plane client: " ++
          ("failed to create control-plane client: " ++ e), ?_,
        strings_Contains_wrap2 _ _ e⟩⟩
    · simp [resourceYDBTopicRead, createYDBConnection, hparse, hopen, diag.FromErr]
    · simp [performYDBTopicUpdate, createYDBConnection, hparse, hopen, diag.FromErr]
    · simp [resourceYDBTopicDelete, createYDBConnection, hparse, hopen, diag.FromErr]
  · intro topic c e st1 st2 hparse hopen
    refine ⟨?_, ?_, ?_⟩
    · intro hdesc hnf
      refine ⟨"resource: failed to describe topic: " ++ e, ?_, strings_Contains_wrap _ e⟩
      simp [resourceYDBTopicRead, createYDBConnection, hparse, hopen, hdesc, hnf,
        diag.FromErr]
    · intro hdrop
      refine ⟨"failed to delete topic: " ++ e, ?_, strings_Contains_wrap _ e⟩
      simp [resourceYDBTopicDelete, createYDBConnection, hparse, hopen, hdrop, diag.FromErr]
    · intro desc st3 hchange hdesc halter
      refine ⟨"got error when tried to alter topic: " ++ e, ?_, strings_Contains_wrap _ e⟩
      simp [performYDBTopicUpdate, createYDBConnection, hparse, hopen, hchange, hdesc,
        halter, diag.FromErr]
  · intro e st1 hopen
    refine ⟨"failed to initialize yds control plane client: " ++
        ("failed to create control-plane client: " ++ e), ?_, strings_Contains_wrap2 _ _ e⟩
    simp [resourceYDBTopicCreate, createYDBConnection, hopen, diag.FromErr]
  · intro c e st1 st2 hopen hcreate
    refine ⟨"failed to initialize ydb-topic control plane client: " ++ e, ?_,
      strings_Contains_wrap _ e⟩
    simp [resourceYDBTopicCreate, createYDBConnection, hopen, hcreate, diag.FromErr]

/-- Claim C11, the code evaluated: topic Update with an unchanged `name` against a
backend whose Describe call fails with `transport: deadline exceeded`, which is not
a not-found signal.  The update returns one Error diagnostic whose text is
`failed to get description for topic "orders"`; it does not contain the text of
the Describe error.  Read against the same backend wraps the same error and keeps
its text. -/
theorem update_describe_failure_drops_error_text :
    memOrders.nameHasChange = false ∧
    (memTopicEnvTimeout.topicDescribe ["orders"] 1 "orders").1.toOption = none ∧
    strings.Contains "transport: deadline exceeded" "does not exist" = false ∧
    (performYDBTopicUpdate memTopicEnvTimeout "token" memOrders ["orders"]).diags =
      [{ severity := Severity.Error,
         summary := "failed to get description for topic \"orders\"", detail := "" }] ∧
    strings.Contains "failed to get description for topic \"orders\""
      "transport: deadline exceeded" = false ∧
    (resourceYDBTopicRead memTopicEnvTimeout "token" memOrders ["orders"]).diags =
      [{ severity := Severity.Error,
         summary := "resource: failed to describe topic: transport: deadline exceeded",
         detail := "" }] ∧
    strings.Contains "resource: failed to describe topic: transport: deadline exceeded"
      "transport: deadline exceeded" = true := by
  decide

/-- Claim C12, counterexample: topic Create on a configuration whose `consumer`
list holds two entries named `billing`.  The handler issues the backend create call
with both consumers and, the in-memory backend accepting it, returns no
diagnostics. -/
theorem topic_create_duplicate_consumers_counterexample :
    memOrdersDuplicate.consumer.map (fun cc => cc.name) = ["billing", "billing"] ∧
    (resourceYDBTopicCreate memTopicEnv "token" memOrdersDuplicate []).log.filter
        Event.isCreate =
      [Event.Create 1 (topicCreateRequest memTopicEnv memOrdersDuplicate)] ∧
    (topicCreateRequest memTopicEnv memOrdersDuplicate).consumers.map (fun k => k.Name) =
      ["billing", "billing"] ∧
    (resourceYDBTopicCreate memTopicEnv "token" memOrdersDuplicate []).diags = [] := by
  decide

/-- Claim C12, amended: topic Create makes no check on consumer names.  For every
topic configuration, one with two consumer entries of the same name included, once
the connection opens the handler issues exactly one backend create-topic call, and
that call carries one consumer per configured entry, with the configured names in
the configured order; when the backend accepts the call the handler returns the
diagnostics of the read-back. -/
theorem topic_create_passes_consumers_through (env : TopicEnv σ δ ο) (token : String)
    (d : ResourceData) (st st1 : σ) (c : Conn)
    (hopen : env.ydbOpen st d.database_endpoint token = (Except.ok c, st1)) :
    (resourceYDBTopicCreate env token d st).log.filter Event.isCreate =
      [Event.Create c (topicCreateRequest env d)] ∧
    (topicCreateRequest env d).consumers.map (fun k => k.Name) =
      d.consumer.map (fun cc => cc.name) ∧
    (∀ (st2 : σ), env.topicCreate st1 c (topicCreateRequest env d) = (none, st2) →
      (resourceYDBTopicCreate env token d st).diags =
        (resourceYDBTopicRead env token
          (d.SetId (d.database_endpoint ++ "/" ++ d.name)) st2).diags) := by
  rcases hc : env.topicCreate st1 c (topicCreateRequest env d) with ⟨r, st2⟩
  refine ⟨?_, ?_, ?_⟩
  · cases r with
    | some err =>
      simp [resourceYDBTopicCreate, createYDBConnection, hopen, hc, Event.isCreate]
    | none =>
      simp [resourceYDBTopicCreate, createYDBConnection, hopen, hc, Event.isCreate,
        List.filter_append, (resourceYDBTopicRead_log_filter env token _ st2).2]
  · simp [topicCreateRequest, topicConsumer, Function.comp_def]
  · intro st2' h
    cases r with
    | some err => simp at h
    | none =>
      have hst : st2 = st2' := by simpa using congrArg Prod.snd h
      subst hst
      simp [resourceYDBTopicCreate, createYDBConnection, hopen, hc]

/-- Witness of claim C12 as amended: the configuration with two consumers named
`billing` on the in-memory backend. -/
theorem topic_create_passes_consumers_through_witness :
    (resourceYDBTopicCreate memTopicEnv "token" memOrdersDuplicate []).log.filter
        Event.isCreate =
      [Event.Create 1 (topicCreateRequest memTopicEnv memOrdersDuplicate)] ∧
    (topicCreateRequest memTopicEnv memOrdersDuplicate).consumers.map (fun k => k.Name) =
      memOrdersDuplicate.consumer.map (fun cc => cc.name) :=
  ⟨(topic_create_passes_consumers_through memTopicEnv "token" memOrdersDuplicate [] [] 1
      rfl).1,
   (topic_create_passes_consumers_through memTopicEnv "token" memOrdersDuplicate [] [] 1
      rfl).2.1⟩

/-- The function `tableResourceSchemaToTableResource` never returns the pair
`(nil, nil)`. -/
theorem tableResourceSchemaToTableResource_ne_nil (env : TableEnv σ κ) (d : TableData) :
    tableResourceSchemaToTableResource env d ≠ Except.ok none := by
  intro h
  unfold tableResourceSchemaToTableResource at h
  simp only at h
  split at h
  · cases h
  · split at h
    · cases h
    · split at h
      · cases h
      · cases h

/-- Claim C13: Create is atomic with respect to the identifier.  On every failing
path of table Create (the resource cannot be built, the resource is nil, the
connection does not open, the scheme statement fails) and of topic Create (the
connection does not open, the backend create call fails) the handler returns
exactly one Error diagnostic, leaves the resource data, identifier included, as it
was on entry, and its events hold no Read: they are exactly the calls made up to
the failure and the Close of an opened connection.  On the remaining path the
backend create call has succeeded, and only then is the identifier set and Read
invoked on it. -/
theorem create_failure_keeps_identifier (tenv : TableEnv τ κ) (env : TopicEnv σ δ ο)
    (token : String) (td : TableData) (tst : τ) (d : ResourceData) (st : σ) :
    (∀ (e : String), tableResourceSchemaToTableResource tenv td = Except.error e →
      (handler.Create tenv token td tst).diags =
        [{ severity := Severity.Error, summary := e, detail := "" }] ∧
      (handler.Create tenv token td tst).d = td ∧
      (handler.Create tenv token td tst).log = []) ∧
    ((handler.CreateFrom tenv token td tst (Except.ok none)).diags =
        [{ severity := Severity.Error, summary := "got nil resource, unreachable code",
           detail := "" }] ∧
      (handler.CreateFrom tenv token td tst (Except.ok none)).d = td ∧
      (handler.CreateFrom tenv token td tst (Except.ok none)).log = []) ∧
    (∀ (res : Resource κ) (e : String) (tst1 : τ),
      tableResourceSchemaToTableResource tenv td = Except.ok (some res) →
      tenv.CreateDBConnection tst res.DatabaseEndpoint token = (Except.error e, tst1) →
      (handler.Create tenv token td tst).diags =
        [{ severity := Severity.Error, summary := "failed to initialize table client",
           detail := e }] ∧
      (handler.Create tenv token td tst).d = td ∧
      (handler.Create tenv token td tst).log =
        [TableEvent.Open res.DatabaseEndpoint token]) ∧
    (∀ (res : Resource κ) (db : Conn) (tst1 : τ),
      tableResourceSchemaToTableResource tenv td = Except.ok (some res) →
      tenv.CreateDBConnection tst res.DatabaseEndpoint token = (Except.ok db, tst1) →
      (∀ (e : String) (tst2 : τ),
        tenv.ExecuteSchemeQuery tst1 db
            (tenv.PrepareCreateRequest { res with Token := token }) = (some e, tst2) →
        (handler.Create tenv token td tst).diags =
          [{ severity := Severity.Error, summary := "failed to create table",
             detail := e }] ∧
        (handler.Create tenv token td tst).d = td ∧
        (handler.Create tenv token td tst).log =
          [TableEvent.Open res.DatabaseEndpoint token,
            TableEvent.ExecuteSchemeQuery db
              (tenv.PrepareCreateRequest { res with Token := token }),
            TableEvent.Close db]) ∧
      (∀ (tst2 : τ),
        tenv.ExecuteSchemeQuery tst1 db
            (tenv.PrepareCreateRequest { res with Token := token }) = (none, tst2) →
        (handler.Create tenv token td tst).diags = (tenv.Read tst2 (td.SetId res.Path)).1.1 ∧
        (handler.Create tenv token td tst).d = (tenv.Read tst2 (td.SetId res.Path)).1.2 ∧
        (handler.Create tenv token td tst).log =
          [TableEvent.Open res.DatabaseEndpoint token,
            TableEvent.ExecuteSchemeQuery db
              (tenv.PrepareCreateRequest { res with Token := token }),
            TableEvent.Read res.Path, TableEvent.Close db])) ∧
    (∀ (e : String) (st1 : σ),
      env.ydbOpen st d.database_endpoint token = (Except.error e, st1) →
      (resourceYDBTopicCreate env token d st).diags =
        [{ severity := Severity.Error,
           summary := "failed to initialize yds control plane client: " ++
             ("failed to create control-plane client: " ++ e),
           detail := "" }] ∧
      (resourceYDBTopicCreate env token d st).d = d ∧
      (resourceYDBTopicCreate env token d st).log = [Event.Open d.database_endpoint]) ∧
    (∀ (c : Conn) (st1 : σ),
      env.ydbOpen st d.database_endpoint token = (Except.ok c, st1) →
      (∀ (e : String) (st2 : σ),
        env.topicCreate st1 c (topicCreateRequest env d) = (some e, st2) →
        (resourceYDBTopicCreate env token d st).diags =
          [{ severity := Severity.Error,
             summary := "failed to initialize ydb-topic control plane client: " ++ e,
             detail := "" }] ∧
        (resourceYDBTopicCreate env token d st).d = d ∧
        (resourceYDBTopicCreate env token d st).log =
          [Event.Open d.database_endpoint, Event.Create c (topicCreateRequest env d),
            Event.Close c]) ∧
      (∀ (st2 : σ),
        env.topicCreate st1 c (topicCreateRequest env d) = (none, st2) →
        (resourceYDBTopicCreate env token d st).diags =
          (resourceYDBTopicRead env token
            (d.SetId (d.database_endpoint ++ "/" ++ d.name)) st2).diags ∧
        (resourceYDBTopicCreate env token d st).d =
          (resourceYDBTopicRead env token
            (d.SetId (d.database_endpoint ++ "/" ++ d.name)) st2).d ∧
        (resourceYDBTopicCreate env token d st).log =
          [Event.Open d.database_endpoint, Event.Create c (topicCreateRequest env d)] ++
            (resourceYDBTopicRead env token
              (d.SetId (d.database_endpoint ++ "/" ++ d.name)) st2).log ++
            [Event.Close c])) := by
  refine ⟨?_, ?_, ?_, ?_, ?_, ?_⟩
  · intro e hb
    simp [handler.Create, hb, diag.FromErr]
  · simp [handler.CreateFrom]
  · intro res e tst1 hb hconn
    simp [handler.Create, hb, hconn]
  · intro res db tst1 hb hconn
    constructor
    · intro e tst2 hexec
      simp [handler.Create, hb, hconn, hexec]
    · intro tst2 hexec
      simp [handler.Create, hb, hconn, hexec, TableData.SetId]
  · intro e st1 hopen
    simp [resourceYDBTopicCreate, createYDBConnection, hopen, diag.FromErr]
  · intro c st1 hopen
    constructor
    · intro e st2 hcreate
      simp [resourceYDBTopicCreate, createYDBConnection, hopen, hcreate, diag.FromErr]
    · intro st2 hcreate
      simp [resourceYDBTopicCreate, createYDBConnection, hopen, hcreate]

/-- Witness of claim C13: on the example backends, table Create with an endpoint
the backend refuses and topic Create under an endpoint that is down each return one
Error diagnostic and leave the identifier empty, as it was. -/
theorem create_failure_keeps_identifier_witness :
    (handler.Create memTableEnv "token" memTableNoEndpoint []).diags =
      [{ severity := Severity.Error, summary := "failed to initialize table client",
         detail := "empty endpoint" }] ∧
    (handler.Create memTableEnv "token" memTableNoEndpoint []).d.id = "" ∧
    (resourceYDBTopicCreate memTopicEnv "token" memOrdersDown []).diags.length = 1 ∧
    (resourceYDBTopicCreate memTopicEnv "token" memOrdersDown []).d.id = "" := by
  have h := create_failure_keeps_identifier memTableEnv memTopicEnv "token"
    memTableNoEndpoint [] memOrdersDown []
  have ht := h.2.2.1
    { Entity := none, FullPath := "/t1", Path := "t1", DatabaseEndpoint := "",
      Attributes := [], Family := [],
      Columns := [{ Name := "id", Type_ := "Int64", Family := "", NotNull := true }],
      Indexes := [], PrimaryKey := { Columns := ["id"] }, TTL := none,
      ReplicationSettings := none, PartitioningSettings := none,
      EnableBloomFilter := none, Token := "" }
    "empty endpoint" [] rfl rfl
  have hp := h.2.2.2.2.1 "dial tcp: connection refused" [] rfl
  refine ⟨ht.1, ?_, ?_, ?_⟩
  · rw [ht.2.1]
    rfl
  · rw [hp.1]
    rfl
  · rw [hp.2.1]
    rfl

end FailureTheorems

end YDB
